import Mathlib

/-!
# Quotes service: handler, service and repository

A shallow embedding of the request path of the quotes service
(`api/quote_controller.go`, `internal/services/quote_service.go`,
`internal/drivers/quote_driver.go`, `internal/drivers/queries.go`) and of the
environment-file loader (`internal/config/load_env.go`).

Conventions of the embedding.

* A Go `string` is a Lean `String`; its bytes are the UTF-8 encoding of its
  characters (`goBytes`), so `len(s)` is `goLen s` and `s[i]` is `goIndex s i`.
  Strings are taken to be valid UTF-8.
* A Go result `(T, error)` is `Except Error T`; a lone `error` is
  `Option Error` with `none` for `nil`.
* A run-time panic (nil dereference, index out of range) is the outer `none`
  of an `Option`.
* Stateful calls pass the state explicitly: `σ → result × σ`.
* A layer reaches the layer below through a record of functions
  (`QuoteServiceInterface`, `QuoteDriverInterface`), as the Go code does
  through its fields; the production wiring of `cmd/server/main.go` is
  `server pick newUuid`, the service over the repository over the store.
* What a request draws at random is a parameter: `newUuid` for `uuid.New()`,
  `pick` for the store's `ORDER BY RANDOM()`.
-/

set_option autoImplicit false
set_option linter.dupNamespace false

namespace Quotes

/-! ## Go strings -/

/-- UTF-8 encoding of one character, as a list of byte values. -/
def utf8Bytes (c : Char) : List Nat :=
  let v := c.toNat
  if v < 0x80 then [v]
  else if v < 0x800 then [0xC0 + v / 64, 0x80 + v % 64]
  else if v < 0x10000 then [0xE0 + v / 4096, 0x80 + (v / 64) % 64, 0x80 + v % 64]
  else [0xF0 + v / 262144, 0x80 + (v / 4096) % 64, 0x80 + (v / 64) % 64, 0x80 + v % 64]

/-- The bytes of a Go string. -/
def goBytes (s : String) : List Nat :=
  s.data.flatMap utf8Bytes

/-- Go `len(s)`: the number of bytes. -/
def goLen (s : String) : Nat :=
  (goBytes s).length

/-- Go `s[i]`: the byte at index `i`; `none` is the index-out-of-range panic. -/
def goIndex (s : String) (i : Nat) : Option Nat :=
  (goBytes s)[i]?

/-- Go `unicode.IsSpace`: the code points with the White_Space property. -/
def isSpace (c : Char) : Bool :=
  let v := c.toNat
  v == 0x09 || v == 0x0A || v == 0x0B || v == 0x0C || v == 0x0D || v == 0x20 ||
  v == 0x85 || v == 0xA0 || v == 0x1680 || (0x2000 ≤ v && v ≤ 0x200A) ||
  v == 0x2028 || v == 0x2029 || v == 0x202F || v == 0x205F || v == 0x3000

/-- Drop the trailing elements that satisfy `p`. -/
def dropTrailing {α : Type} (p : α → Bool) (l : List α) : List α :=
  ((l.reverse).dropWhile p).reverse

/-- Go `strings.TrimSpace`: the string without leading and trailing white
space. -/
def TrimSpace (s : String) : String :=
  ⟨dropTrailing isSpace (s.data.dropWhile isSpace)⟩

/-! ## Data model -/

/-- The type `pgtype.UUID`: sixteen bytes and a validity flag (`Valid = false`
is SQL NULL). -/
structure UUID where
  Bytes : List Nat
  Valid : Bool
  deriving DecidableEq, Repr

/-- Storage entity, `models.Quote`. -/
structure Quote where
  Id : UUID
  Author : String
  Text : String
  deriving DecidableEq, Repr

/-- Transfer object, `dtos.QuoteDto`: every field is a nullable pointer. -/
structure QuoteDto where
  Id : Option UUID
  Author : Option String
  Text : Option String
  deriving DecidableEq, Repr

/-- Values of the Go `error` interface that occur on the request path. -/
inductive Error where
  /-- The error `pgx.ErrNoRows`. -/
  | ErrNoRows
  /-- The controller's `InvalidUUIDError`. -/
  | InvalidUUIDError (UUID : String)
  /-- A store error carrying an SQLSTATE code. -/
  | PgError (code : String)
  /-- Any other error, carrying its message. -/
  | other (msg : String)
  deriving DecidableEq, Repr

/-! ## Identifier text format (`pgtype.UUID.Scan`, `MarshalJSON`) -/

/-- Value of one hexadecimal digit byte, as in `encoding/hex`. -/
def fromHexChar (b : Nat) : Option Nat :=
  if 48 ≤ b ∧ b ≤ 57 then some (b - 48)
  else if 97 ≤ b ∧ b ≤ 102 then some (b - 97 + 10)
  else if 65 ≤ b ∧ b ≤ 70 then some (b - 65 + 10)
  else none

/-- Go `hex.DecodeString` on a byte list: pairs of digits become bytes; an
odd length or a byte that is no digit is an error (`none`). -/
def hexDecode : List Nat → Option (List Nat)
  | [] => some []
  | [_] => none
  | p :: q :: rest =>
    match fromHexChar p, fromHexChar q with
    | some a, some b =>
      match hexDecode rest with
      | some bs => some ((a * 16 + b) :: bs)
      | none => none
    | _, _ => none

/-- The library routine behind `pgtype.UUID.Scan` for a string source: a
36-byte source loses the bytes at 8, 13, 18 and 23, a 32-byte source is taken
as it is, and the 32 remaining bytes are decoded as hexadecimal. -/
def pgtypeParseUUID (src : String) : Except Error (List Nat) :=
  let b := goBytes src
  let digits : Option (List Nat) :=
    if b.length = 36 then
      some (b.take 8 ++ (b.drop 9).take 4 ++ (b.drop 14).take 4 ++ (b.drop 19).take 4 ++ b.drop 24)
    else if b.length = 32 then some b
    else none
  match digits with
  | none => .error (.other ("cannot parse UUID " ++ src))
  | some ds =>
    match hexDecode ds with
    | some buf => .ok ((buf ++ List.replicate 16 0).take 16)
    | none => .error (.other "encoding/hex: invalid byte")

/-- Go `pgtype.UUID.Scan` on a string. -/
def UUID.Scan (src : String) : Except Error UUID :=
  match pgtypeParseUUID src with
  | .ok buf => .ok ⟨buf, true⟩
  | .error e => .error e

/-- One lower-case hexadecimal digit. -/
def hexDigit (n : Nat) : Char :=
  if n < 10 then Char.ofNat (48 + n) else Char.ofNat (87 + n)

/-- Two hexadecimal digits per byte. -/
def hexEncode (bs : List Nat) : List Char :=
  bs.flatMap (fun b => [hexDigit (b / 16), hexDigit (b % 16)])

/-- The canonical 36-character rendering `8-4-4-4-12` used by
`pgtype.UUID.MarshalJSON`. -/
def encodeUUID (bs : List Nat) : String :=
  ⟨hexEncode (bs.take 4) ++ '-' :: hexEncode ((bs.drop 4).take 2) ++ '-' ::
    hexEncode ((bs.drop 6).take 2) ++ '-' :: hexEncode ((bs.drop 8).take 2) ++ '-' ::
    hexEncode ((bs.drop 10).take 6)⟩

/-! ## HTTP responses -/

/-- A scalar JSON value as the handlers emit it. -/
inductive Json where
  | null
  | str (s : String)
  deriving DecidableEq, Repr

/-- A JSON object: its fields in order. -/
abbrev JsonObject := List (String × Json)

/-- What is written to the response body. -/
inductive Body where
  /-- Nothing written. -/
  | empty
  /-- One JSON object. -/
  | object (fields : JsonObject)
  /-- A JSON array of objects. -/
  | array (items : List JsonObject)
  deriving DecidableEq, Repr

/-- What a handler leaves in the `http.ResponseWriter`. -/
structure Response where
  statusCode : Nat
  contentType : Option String
  body : Body
  deriving DecidableEq, Repr

/-- Go `http.StatusOK`. -/
def StatusOK : Nat := 200

/-- Go `http.StatusCreated`. -/
def StatusCreated : Nat := 201

/-- Go `http.StatusNoContent`. -/
def StatusNoContent : Nat := 204

/-- Go `http.StatusBadRequest`. -/
def StatusBadRequest : Nat := 400

/-- Go `http.StatusInternalServerError`. -/
def StatusInternalServerError : Nat := 500

/-- JSON form of a nullable string field. -/
def jsonString : Option String → Json
  | none => .null
  | some s => .str s

/-- JSON form of a nullable identifier (`pgtype.UUID.MarshalJSON`): `null` for
a nil pointer or an invalid value, else the canonical text. -/
def jsonUUID : Option UUID → Json
  | none => .null
  | some u => if u.Valid then .str (encodeUUID u.Bytes) else .null

/-- JSON form of a `QuoteDto`, by its field tags. -/
def QuoteDto.toJson (d : QuoteDto) : JsonObject :=
  [("id", jsonUUID d.Id), ("author", jsonString d.Author), ("text", jsonString d.Text)]

/-- The controller's `writeJSONResponse`: content type, status, encoded data.
Encoding the data of this service cannot fail, so the fallback branch of the
source is unreachable and has no counterpart here. -/
def writeJSONResponse (data : Body) (statusCode : Nat) : Response :=
  ⟨statusCode, some "application/json", data⟩

/-- The controller's `writeErrorResponse`: content type, status and the map
with the one key `error`. -/
def writeErrorResponse (message : String) (statusCode : Nat) : Response :=
  ⟨statusCode, some "application/json", .object [("error", .str message)]⟩

/-! ## Layer interfaces -/

/-- The repository as the service sees it (`QuoteDriverInterface`). -/
structure QuoteDriverInterface (σ : Type) where
  CreateQuote : Quote → σ → Option Error × σ
  DeleteQuote : UUID → σ → Option Error × σ
  GetAllQuotes : σ → Except Error (List Quote) × σ
  GetQuoteByAuthor : String → σ → Except Error (List Quote) × σ
  GetRandomQuote : σ → Except Error Quote × σ
  GetQuoteById : UUID → σ → Except Error Quote × σ

/-- The service as the controller sees it (`QuoteServiceInterface`).
`CreateQuote` dereferences two pointers of its argument, so it can panic. -/
structure QuoteServiceInterface (σ : Type) where
  CreateQuote : QuoteDto → σ → Option (Except Error QuoteDto × σ)
  DeleteQuote : UUID → σ → Option Error × σ
  GetAllQuotes : σ → Except Error (List QuoteDto) × σ
  GetQuoteByAuthor : String → σ → Except Error (List QuoteDto) × σ
  GetRandomQuote : σ → Except Error QuoteDto × σ

/-! ## Controller (`api/quote_controller.go`) -/

/-- The controller's `parseUUID`. The disjunction of the source is evaluated
left to right and stops at the first true operand, so a byte is read only
after the length test has passed; `none` is the index-out-of-range panic. -/
def parseUUID (uuidStr : String) : Option (Except Error UUID) :=
  let uuidStr := TrimSpace uuidStr
  if goLen uuidStr ≠ 36 then some (.error (.InvalidUUIDError uuidStr))
  else
    match goIndex uuidStr 8 with
    | none => none
    | some b8 =>
      if b8 ≠ 45 then some (.error (.InvalidUUIDError uuidStr))
      else
        match goIndex uuidStr 13 with
        | none => none
        | some b13 =>
          if b13 ≠ 45 then some (.error (.InvalidUUIDError uuidStr))
          else
            match goIndex uuidStr 18 with
            | none => none
            | some b18 =>
              if b18 ≠ 45 then some (.error (.InvalidUUIDError uuidStr))
              else
                match goIndex uuidStr 23 with
                | none => none
                | some b23 =>
                  if b23 ≠ 45 then some (.error (.InvalidUUIDError uuidStr))
                  else
                    match UUID.Scan uuidStr with
                    | .error err => some (.error err)
                    | .ok pgUuid => some (.ok pgUuid)

/-- Handler `createQuote`. `decoded` is what `Decode` made of the request
body: an error, or the transfer object. -/
def createQuote {σ : Type} (service : QuoteServiceInterface σ)
    (decoded : Except Error QuoteDto) (s : σ) : Option (Response × σ) :=
  match decoded with
  | .error _ => some (writeErrorResponse "Invalid JSON format" StatusBadRequest, s)
  | .ok quoteDto =>
    if quoteDto.Author = none ∨ (quoteDto.Author.map TrimSpace) = some "" then
      some (writeErrorResponse "Author is required" StatusBadRequest, s)
    else if quoteDto.Text = none ∨ (quoteDto.Text.map TrimSpace) = some "" then
      some (writeErrorResponse "Text is required" StatusBadRequest, s)
    else
      match service.CreateQuote quoteDto s with
      | none => none
      | some (.error _, s1) =>
        some (writeErrorResponse "Failed to create quote" StatusInternalServerError, s1)
      | some (.ok createdQuote, s1) =>
        some (writeJSONResponse (.object createdQuote.toJson) StatusCreated, s1)

/-- Go `url.Values`: each key with its list of values. -/
abbrev Values := List (String × List String)

/-- Go `url.Values.Get`: the first value of the key, or the empty string. -/
def Values.Get (v : Values) (key : String) : String :=
  match v.lookup key with
  | some (x :: _) => x
  | _ => ""

/-- Handler `getQuotes`. `query` is `r.URL.Query()`. -/
def getQuotes {σ : Type} (service : QuoteServiceInterface σ) (query : Values) (s : σ) :
    Response × σ :=
  let author := Values.Get query "author"
  let r := if author ≠ "" then service.GetQuoteByAuthor author s else service.GetAllQuotes s
  match r with
  | (.error _, s1) =>
    (writeErrorResponse "Failed to retrieve quotes" StatusInternalServerError, s1)
  | (.ok quotes, s1) =>
    (writeJSONResponse (.array (quotes.map QuoteDto.toJson)) StatusOK, s1)

/-- Handler `getRandomQuote`. -/
def getRandomQuote {σ : Type} (service : QuoteServiceInterface σ) (s : σ) : Response × σ :=
  match service.GetRandomQuote s with
  | (.error _, s1) =>
    (writeErrorResponse "Failed to retrieve random quote" StatusInternalServerError, s1)
  | (.ok quote, s1) => (writeJSONResponse (.object quote.toJson) StatusOK, s1)

/-- Handler `deleteQuote`. `idStr` is the path variable `id`. -/
def deleteQuote {σ : Type} (service : QuoteServiceInterface σ) (idStr : String) (s : σ) :
    Option (Response × σ) :=
  if idStr = "" then some (writeErrorResponse "Quote ID is required" StatusBadRequest, s)
  else
    match parseUUID idStr with
    | none => none
    | some (.error _) => some (writeErrorResponse "Invalid UUID format" StatusBadRequest, s)
    | some (.ok pgUuid) =>
      match service.DeleteQuote pgUuid s with
      | (some _, s1) =>
        some (writeErrorResponse "Failed to delete quote" StatusInternalServerError, s1)
      | (none, s1) => some (⟨StatusNoContent, none, .empty⟩, s1)

/-! ## Service (`internal/services/quote_service.go`) -/

/-- The service's `generateUuid`; `newUuid` is the value `uuid.New()` drew. -/
def generateUuid (newUuid : List Nat) : UUID :=
  { Bytes := newUuid, Valid := true }

/-- Service `CreateQuote`. Dereferencing a nil `Author` or `Text` panics. -/
def QuoteService.CreateQuote {σ : Type} (driver : QuoteDriverInterface σ) (newUuid : List Nat)
    (quoteDto : QuoteDto) (s : σ) : Option (Except Error QuoteDto × σ) :=
  let id := generateUuid newUuid
  match quoteDto.Author, quoteDto.Text with
  | some author, some text =>
    let quote : Quote := { Id := id, Author := author, Text := text }
    match driver.CreateQuote quote s with
    | (some err, s1) => some (.error err, s1)
    | (none, s1) => some (.ok { quoteDto with Id := some id }, s1)
  | _, _ => none

/-- Service `DeleteQuote`: look the identifier up, then delete. -/
def QuoteService.DeleteQuote {σ : Type} (driver : QuoteDriverInterface σ) (id : UUID) (s : σ) :
    Option Error × σ :=
  match driver.GetQuoteById id s with
  | (.error err, s1) => (some err, s1)
  | (.ok _, s1) => driver.DeleteQuote id s1

/-- The loop shared by `GetAllQuotes` and `GetQuoteByAuthor`: a slice of
`len(quotes)` zero transfer objects, whose `i`-th slot is overwritten on the
`i`-th iteration with pointers to the fields of that iteration's `quote`
(the loop variable is per iteration, as from Go 1.22). -/
def quotesToDtos (quotes : List Quote) : List QuoteDto :=
  quotes.enum.foldl
    (fun quoteDtos iq =>
      quoteDtos.set iq.1 { Id := some iq.2.Id, Author := some iq.2.Author, Text := some iq.2.Text })
    (List.replicate quotes.length { Id := none, Author := none, Text := none })

/-- Service `GetAllQuotes`. -/
def QuoteService.GetAllQuotes {σ : Type} (driver : QuoteDriverInterface σ) (s : σ) :
    Except Error (List QuoteDto) × σ :=
  match driver.GetAllQuotes s with
  | (.error err, s1) => (.error err, s1)
  | (.ok quotes, s1) => (.ok (quotesToDtos quotes), s1)

/-- Service `GetQuoteByAuthor`. -/
def QuoteService.GetQuoteByAuthor {σ : Type} (driver : QuoteDriverInterface σ) (author : String)
    (s : σ) : Except Error (List QuoteDto) × σ :=
  match driver.GetQuoteByAuthor author s with
  | (.error err, s1) => (.error err, s1)
  | (.ok quotes, s1) => (.ok (quotesToDtos quotes), s1)

/-- Service `GetRandomQuote`. -/
def QuoteService.GetRandomQuote {σ : Type} (driver : QuoteDriverInterface σ) (s : σ) :
    Except Error QuoteDto × σ :=
  match driver.GetRandomQuote s with
  | (.error err, s1) => (.error err, s1)
  | (.ok quote, s1) =>
    (.ok { Id := some quote.Id, Author := some quote.Author, Text := some quote.Text }, s1)

/-- The service over a repository (`NewQuoteService`), for one request in
which `uuid.New()` draws `newUuid`. -/
def NewQuoteService {σ : Type} (driver : QuoteDriverInterface σ) (newUuid : List Nat) :
    QuoteServiceInterface σ where
  CreateQuote := QuoteService.CreateQuote driver newUuid
  DeleteQuote := QuoteService.DeleteQuote driver
  GetAllQuotes := QuoteService.GetAllQuotes driver
  GetQuoteByAuthor := QuoteService.GetQuoteByAuthor driver
  GetRandomQuote := QuoteService.GetRandomQuote driver

/-! ## Data store -/

/-- One row of the table `quotes`. -/
structure Row where
  id : List Nat
  author : String
  text : String
  deriving DecidableEq, Repr

/-- Modelled from the spec: the schema of the table, which the source only
uses (the `CREATE TABLE` text is not among the source files). The spec gives
`quotes(id UUID PK, author TEXT, text TEXT)`: the rows in storage order, the
identifier column being non-null and unique. The store is taken to answer
every statement (no connection fault). -/
structure Db where
  rows : List Row
  deriving DecidableEq, Repr

/-- How a `pgtype.UUID` argument reaches a statement: NULL when not valid. -/
def UUID.param (u : UUID) : Option (List Nat) :=
  if u.Valid then some u.Bytes else none

/-- How an identifier column is scanned into a `pgtype.UUID`. -/
def scanUUID (col : List Nat) : UUID :=
  { Bytes := col, Valid := true }

/-- Statement `queryCreateQuote`: `INSERT INTO quotes (id, author, text) VALUES ($1, $2, $3)`.
A NULL identifier violates the key's non-null constraint (SQLSTATE 23502), an
identifier already stored its uniqueness (23505). -/
def queryCreateQuote (id : Option (List Nat)) (author text : String) (db : Db) :
    Except Error Db :=
  match id with
  | none => .error (.PgError "23502")
  | some i =>
    if db.rows.any (fun r => r.id = i) then .error (.PgError "23505")
    else .ok { rows := db.rows ++ [{ id := i, author := author, text := text }] }

/-- Statement `queryDeleteQuote`: `DELETE FROM quotes WHERE id = $1`. A NULL
argument matches no row. -/
def queryDeleteQuote (id : Option (List Nat)) (db : Db) : Db :=
  { rows := db.rows.filter (fun r => ¬ (some r.id = id)) }

/-- Statement `queryGetAllQuotes`: `SELECT id, author, text FROM quotes`. -/
def queryGetAllQuotes (db : Db) : List (List Nat × String × String) :=
  db.rows.map (fun r => (r.id, r.author, r.text))

/-- Statement `queryGetQuoteByAuthor`: `SELECT id, text FROM quotes WHERE author = $1`. -/
def queryGetQuoteByAuthor (author : String) (db : Db) : List (List Nat × String) :=
  (db.rows.filter (fun r => r.author = author)).map (fun r => (r.id, r.text))

/-- Statement `queryGetRandomQuote`:
`SELECT id, author, text FROM quotes ORDER BY RANDOM() LIMIT 1`. The store's
random order is the parameter `pick`: the row at position `pick` modulo the
number of rows comes first. -/
def queryGetRandomQuote (pick : Nat) (db : Db) : List (List Nat × String × String) :=
  match db.rows[pick % db.rows.length]? with
  | none => []
  | some r => [(r.id, r.author, r.text)]

/-- Statement `queryGetQuoteById`: `SELECT author, text FROM quotes WHERE id = $1`. -/
def queryGetQuoteById (id : Option (List Nat)) (db : Db) : List (String × String) :=
  (db.rows.filter (fun r => some r.id = id)).map (fun r => (r.author, r.text))

/-- Go `pgx.Row.Scan` after `QueryRow`: the first row of the result, or
`pgx.ErrNoRows` when there is none. -/
def scanRow {α : Type} (result : List α) : Except Error α :=
  match result with
  | [] => .error .ErrNoRows
  | x :: _ => .ok x

/-! ## Repository (`internal/drivers/quote_driver.go`) -/

/-- Repository `CreateQuote`: one `Exec` of `queryCreateQuote`. -/
def QuoteDriver.CreateQuote (quote : Quote) (db : Db) : Option Error × Db :=
  match queryCreateQuote quote.Id.param quote.Author quote.Text db with
  | .error err => (some err, db)
  | .ok db1 => (none, db1)

/-- Repository `DeleteQuote`: one `Exec` of `queryDeleteQuote`. -/
def QuoteDriver.DeleteQuote (id : UUID) (db : Db) : Option Error × Db :=
  (none, queryDeleteQuote id.param db)

/-- Repository `GetAllQuotes`: every result row is scanned into a fresh
`Quote` and appended. -/
def QuoteDriver.GetAllQuotes (db : Db) : Except Error (List Quote) × Db :=
  (.ok ((queryGetAllQuotes db).foldl
    (fun quotes row => quotes ++ [{ Id := scanUUID row.1, Author := row.2.1, Text := row.2.2 }])
    []), db)

/-- Repository `GetQuoteByAuthor`: every result row is scanned into a `Quote`
whose author is the argument, and appended. -/
def QuoteDriver.GetQuoteByAuthor (author : String) (db : Db) : Except Error (List Quote) × Db :=
  (.ok ((queryGetQuoteByAuthor author db).foldl
    (fun quotes row => quotes ++ [{ Id := scanUUID row.1, Author := author, Text := row.2 }])
    []), db)

/-- Repository `GetRandomQuote`: `QueryRow` and `Scan` into a fresh `Quote`. -/
def QuoteDriver.GetRandomQuote (pick : Nat) (db : Db) : Except Error Quote × Db :=
  match scanRow (queryGetRandomQuote pick db) with
  | .error err => (.error err, db)
  | .ok row => (.ok { Id := scanUUID row.1, Author := row.2.1, Text := row.2.2 }, db)

/-- Repository `GetQuoteById`: `QueryRow` and `Scan` into a `Quote` that
already carries the identifier asked for. -/
def QuoteDriver.GetQuoteById (id : UUID) (db : Db) : Except Error Quote × Db :=
  match scanRow (queryGetQuoteById id.param db) with
  | .error err => (.error err, db)
  | .ok row => (.ok { Id := id, Author := row.1, Text := row.2 }, db)

/-- The repository over the store (`NewQuoteDriver`), for one request in which
the store's random order puts position `pick` first. -/
def NewQuoteDriver (pick : Nat) : QuoteDriverInterface Db where
  CreateQuote := QuoteDriver.CreateQuote
  DeleteQuote := QuoteDriver.DeleteQuote
  GetAllQuotes := QuoteDriver.GetAllQuotes
  GetQuoteByAuthor := QuoteDriver.GetQuoteByAuthor
  GetRandomQuote := QuoteDriver.GetRandomQuote pick
  GetQuoteById := QuoteDriver.GetQuoteById

/-- The layers as `cmd/server/main.go` wires them. -/
def server (pick : Nat) (newUuid : List Nat) : QuoteServiceInterface Db :=
  NewQuoteService (NewQuoteDriver pick) newUuid

/-- The JSON object of a stored row read back in full. -/
def Row.toJson (r : Row) : JsonObject :=
  [("id", .str (encodeUUID r.id)), ("author", .str r.author), ("text", .str r.text)]

/-- A service double that fails every call with the given error, in the
manner of the tests' `MockQuoteService`. -/
def failingService (e : Error) : QuoteServiceInterface Unit where
  CreateQuote := fun _ s => some (.error e, s)
  DeleteQuote := fun _ s => (some e, s)
  GetAllQuotes := fun s => (.error e, s)
  GetQuoteByAuthor := fun _ s => (.error e, s)
  GetRandomQuote := fun s => (.error e, s)

/-- One call on the service, as a recording double notes it. -/
inductive Call where
  | CreateQuote (quoteDto : QuoteDto)
  | DeleteQuote (id : UUID)
  | GetAllQuotes
  | GetQuoteByAuthor (author : String)
  | GetRandomQuote
  deriving DecidableEq, Repr

/-- A service double that records each call with its arguments and answers
with nothing stored, in the manner of the tests' `MockQuoteService`. -/
def recordingService : QuoteServiceInterface (List Call) where
  CreateQuote := fun quoteDto log => some (.ok quoteDto, log ++ [.CreateQuote quoteDto])
  DeleteQuote := fun id log => (none, log ++ [.DeleteQuote id])
  GetAllQuotes := fun log => (.ok [], log ++ [.GetAllQuotes])
  GetQuoteByAuthor := fun author log => (.ok [], log ++ [.GetQuoteByAuthor author])
  GetRandomQuote := fun log => (.error .ErrNoRows, log ++ [.GetRandomQuote])

/-! ## Configuration (`internal/config/load_env.go`) -/

/-- The method `Error()` of an error value: its message. -/
def Error.Error : Error → String
  | .ErrNoRows => "no rows in result set"
  | .InvalidUUIDError uuid => "invalid UUID format: " ++ uuid
  | .PgError code => "SQLSTATE " ++ code
  | .other msg => msg

/-- The process environment: bindings, the most recent first; a lookup takes
the first binding of the key. -/
abbrev Env := List (String × String)

/-- Go `os.LookupEnv`. -/
def LookupEnv (env : Env) (key : String) : Option String :=
  env.lookup key

/-- Go `os.Getenv`: the value, or the empty string when the key is unset. -/
def Getenv (env : Env) (key : String) : String :=
  (LookupEnv env key).getD ""

/-- Whether a string holds the NUL byte. -/
def hasNul (s : String) : Bool :=
  s.data.any (fun c => c.toNat == 0)

/-- Go `os.Setenv`: the system call rejects an empty key, a key holding `=`
or NUL, and a value holding NUL; otherwise the key is bound to the value. -/
def Setenv (key value : String) (env : Env) : Except Error Env :=
  if key = "" ∨ key.data.any (fun c => c == '=') = true ∨ hasNul key = true ∨
      hasNul value = true then
    .error (.other "setenv: invalid argument")
  else .ok ((key, value) :: env)

/-- Go `strings.HasPrefix`. -/
def HasPrefix (s pre : String) : Bool :=
  pre.data.isPrefixOf s.data

/-- Go `strings.SplitN(s, sep, 2)` for a one-character separator: the string
itself when it holds no separator, else what stands before the first
separator and all that stands after it. -/
def SplitN (s : String) (sep : Char) : List String :=
  match s.data.dropWhile (fun c => c != sep) with
  | [] => [s]
  | _ :: after => [⟨s.data.takeWhile (fun c => c != sep)⟩, ⟨after⟩]

/-- The scanning loop of `LoadEnv` over the lines the scanner delivers, from
the line count `lineNumber`; when the lines are used up the result is
`scanner.Err()`, here `scanErr`. -/
def LoadEnv.scan (scanErr : Option Error) : List String → Nat → Env → Option Error × Env
  | [], _, env => (scanErr, env)
  | text :: rest, lineNumber, env =>
    let lineNumber := lineNumber + 1
    let line := TrimSpace text
    if line = "" ∨ HasPrefix line "#" = true then LoadEnv.scan scanErr rest lineNumber env
    else
      match SplitN line '=' with
      | [k, v] =>
        let key := TrimSpace k
        let value := TrimSpace v
        match Setenv key value env with
        | .error err =>
          (some (.other ("failed to set environment variable " ++ key ++ ": " ++ err.Error)), env)
        | .ok env1 => LoadEnv.scan scanErr rest lineNumber env1
      | _ =>
        (some (.other ("invalid format at line " ++ toString lineNumber ++ ": " ++ line)), env)

/-- Config `LoadEnv`. `opened` is what `os.Open` gave: an error, or a file of
which the scanner delivers the lines in order and then reports `scanner.Err()`. -/
def LoadEnv (opened : Except Error (List String × Option Error)) (env : Env) :
    Option Error × Env :=
  match opened with
  | .error err => (some (.other ("failed to open .env file: " ++ err.Error)), env)
  | .ok (lines, scanErr) => LoadEnv.scan scanErr lines 0 env

/-- The forms of a line of the environment file: one that sets nothing, and
`K=V`. -/
inductive EnvLine where
  | skip
  | assign (K V : String)
  deriving DecidableEq, Repr

/-- A line of text has a given form: blank or a comment after trimming; or,
after trimming, `K=V` with no `=` in `K`, not a comment, the trimmed key not
empty and no NUL in the trimmed key and value. -/
def Reads (text : String) : EnvLine → Prop
  | .skip => TrimSpace text = "" ∨ (TrimSpace text).data.head? = some '#'
  | .assign K V =>
    TrimSpace text = K ++ "=" ++ V ∧ '=' ∉ K.data ∧
    (TrimSpace text).data.head? ≠ some '#' ∧ TrimSpace K ≠ "" ∧
    hasNul (TrimSpace K) = false ∧ hasNul (TrimSpace V) = false

/-- The value the lines give a key: that of the last `K=V` line whose trimmed
key it is, if there is one. -/
def lastValue : List EnvLine → String → Option String
  | [], _ => none
  | l :: rest, key =>
    match lastValue rest key with
    | some v => some v
    | none =>
      match l with
      | .assign K V => if TrimSpace K = key then some (TrimSpace V) else none
      | .skip => none

/-! ## Creating a quote -/

/-- The canonical text of an identifier and its scan are inverse on a sample. -/
theorem encodeUUID_Scan_sample :
    encodeUUID [0x12, 0x3e, 0x45, 0x67, 0xe8, 0x9b, 0x12, 0xd3, 0xa4, 0x56, 0x42, 0x66, 0x14,
      0x17, 0x40, 0x00] = "123e4567-e89b-12d3-a456-426614174000" ∧
    UUID.Scan "123E4567-e89b-12d3-a456-426614174000" =
      .ok ⟨[0x12, 0x3e, 0x45, 0x67, 0xe8, 0x9b, 0x12, 0xd3, 0xa4, 0x56, 0x42, 0x66, 0x14, 0x17,
        0x40, 0x00], true⟩ :=
  ⟨by rfl, by rfl⟩

/-- Trimming removes white space at both ends only. -/
theorem TrimSpace_sample : TrimSpace "  a b \t\n" = "a b" := by rfl

/-- A string trims to the empty string exactly when all its characters are
white space. -/
theorem TrimSpace_eq_empty_iff (a : String) :
    TrimSpace a = "" ↔ ∀ c ∈ a.data, isSpace c = true := by
  have hempty : ("" : String) = ⟨[]⟩ := rfl
  rw [TrimSpace, hempty, String.ext_iff]
  simp only [dropTrailing, List.reverse_eq_nil_iff, List.dropWhile_eq_nil_iff]
  constructor
  · intro h
    have hnil : a.data.dropWhile isSpace = [] := by
      by_contra hne
      have hhead := List.head_dropWhile_not isSpace a.data hne
      have := h _ (List.mem_reverse.mpr (List.head_mem hne))
      rw [hhead] at this
      cases this
    exact List.dropWhile_eq_nil_iff.mp hnil
  · intro h c hc
    have hnil : a.data.dropWhile isSpace = [] := List.dropWhile_eq_nil_iff.mpr h
    rw [hnil] at hc
    simp at hc

/-- C1: when the decoded body has no author, or an author that is blank after
trimming, or no text, or a text that is blank after trimming, `createQuote`
answers 400 with an error object; the answer is the same for every service
and the state comes back as it went in, so the service is not invoked and
nothing is persisted. -/
theorem createQuote_rejects_missing_or_blank (quoteDto : QuoteDto)
    (h : (quoteDto.Author = none ∨ ∃ a, quoteDto.Author = some a ∧ TrimSpace a = "") ∨
         (quoteDto.Text = none ∨ ∃ t, quoteDto.Text = some t ∧ TrimSpace t = "")) :
    ∃ message : String, ∀ (σ : Type) (service : QuoteServiceInterface σ) (s : σ),
      createQuote service (.ok quoteDto) s =
        some (⟨400, some "application/json", .object [("error", .str message)]⟩, s) := by
  by_cases hA : quoteDto.Author = none ∨ (quoteDto.Author.map TrimSpace) = some ""
  · exact ⟨"Author is required", fun σ service s => by
      simp only [createQuote]
      rw [if_pos hA]
      rfl⟩
  · have hT : quoteDto.Text = none ∨ (quoteDto.Text.map TrimSpace) = some "" := by
      rcases h with h | h
      · exfalso
        apply hA
        rcases h with h | ⟨a, ha, hb⟩
        · exact Or.inl h
        · exact Or.inr (by simp [ha, hb])
      · rcases h with h | ⟨t, ht, hb⟩
        · exact Or.inl h
        · exact Or.inr (by simp [ht, hb])
    exact ⟨"Text is required", fun σ service s => by
      simp only [createQuote]
      rw [if_neg hA, if_pos hT]
      rfl⟩

/-- Witness for C1: a body whose author is white space only, against the
wired server and a store with one row. -/
theorem createQuote_rejects_missing_or_blank_witness :
    TrimSpace " \t" = "" ∧
    ∃ message : String, ∀ (σ : Type) (service : QuoteServiceInterface σ) (s : σ),
      createQuote service (.ok { Id := none, Author := some " \t", Text := some "Truth" }) s =
        some (⟨400, some "application/json", .object [("error", .str message)]⟩, s) :=
  ⟨rfl, createQuote_rejects_missing_or_blank
    { Id := none, Author := some " \t", Text := some "Truth" } (Or.inl (Or.inr ⟨" \t", rfl, rfl⟩))⟩

/-- The two validation tests of `createQuote` fail on a field that is present
and not blank. -/
theorem field_check_passes (x : String) (hx : TrimSpace x ≠ "") :
    ¬ ((some x : Option String) = none ∨ ((some x : Option String).map TrimSpace) = some "") := by
  rintro (h | h)
  · cases h
  · exact hx (Option.some.inj h)

/-- The handler on a valid body is one repository call with the row built
from the drawn identifier and the submitted author and text. -/
theorem createQuote_valid_eq {σ : Type} (driver : QuoteDriverInterface σ) (newUuid : List Nat)
    (clientId : Option UUID) (author text : String) (s : σ)
    (ha : TrimSpace author ≠ "") (ht : TrimSpace text ≠ "") :
    createQuote (NewQuoteService driver newUuid)
        (.ok { Id := clientId, Author := some author, Text := some text }) s =
      match driver.CreateQuote { Id := generateUuid newUuid, Author := author, Text := text } s with
      | (some _, s1) =>
        some (writeErrorResponse "Failed to create quote" StatusInternalServerError, s1)
      | (none, s1) =>
        some (⟨201, some "application/json",
          .object [("id", .str (encodeUUID newUuid)), ("author", .str author),
            ("text", .str text)]⟩, s1) := by
  simp only [createQuote]
  rw [if_neg (field_check_passes author ha), if_neg (field_check_passes text ht)]
  simp only [NewQuoteService, QuoteService.CreateQuote]
  rcases hc : driver.CreateQuote { Id := generateUuid newUuid, Author := author, Text := text } s
    with ⟨_ | err, s1⟩
  · rfl
  · rfl

/-- The insert succeeds on a store that holds no row with the identifier. -/
theorem CreateQuote_fresh (db : Db) (bytes : List Nat) (author text : String)
    (hfresh : ∀ r ∈ db.rows, r.id ≠ bytes) :
    QuoteDriver.CreateQuote { Id := generateUuid bytes, Author := author, Text := text } db =
      (none, { rows := db.rows ++ [{ id := bytes, author := author, text := text }] }) := by
  have hany : db.rows.any (fun r => decide (r.id = bytes)) = false := by
    rw [List.any_eq_false]
    intro r hr
    simpa using hfresh r hr
  simp [QuoteDriver.CreateQuote, queryCreateQuote, UUID.param, generateUuid, hany]

/-- C2: for a body whose author and text are present and not blank, with or
without a client identifier, when the repository accepts the row the answer is
201 and carries the identifier the server drew, which is valid, and the author
and text as submitted; the row handed to the repository has that identifier,
author and text, and on a store without that identifier it is the row
appended. -/
theorem createQuote_created {σ : Type} (driver : QuoteDriverInterface σ) (newUuid : List Nat)
    (clientId : Option UUID) (author text : String) (s s1 : σ)
    (ha : TrimSpace author ≠ "") (ht : TrimSpace text ≠ "")
    (hins : driver.CreateQuote { Id := generateUuid newUuid, Author := author, Text := text } s =
      (none, s1)) :
    createQuote (NewQuoteService driver newUuid)
        (.ok { Id := clientId, Author := some author, Text := some text }) s =
      some (⟨201, some "application/json",
        .object [("id", .str (encodeUUID newUuid)), ("author", .str author),
          ("text", .str text)]⟩, s1) ∧
    (generateUuid newUuid).Valid = true ∧
    ∀ (pick : Nat) (db : Db), (∀ r ∈ db.rows, r.id ≠ newUuid) →
      createQuote (server pick newUuid)
          (.ok { Id := clientId, Author := some author, Text := some text }) db =
        some (⟨201, some "application/json",
          .object [("id", .str (encodeUUID newUuid)), ("author", .str author),
            ("text", .str text)]⟩,
          { rows := db.rows ++ [{ id := newUuid, author := author, text := text }] }) := by
  refine ⟨?_, rfl, ?_⟩
  · rw [createQuote_valid_eq driver newUuid clientId author text s ha ht, hins]
  · intro pick db hfresh
    have hdb := CreateQuote_fresh db newUuid author text hfresh
    have hdrv : (NewQuoteDriver pick).CreateQuote
        { Id := generateUuid newUuid, Author := author, Text := text } db =
        (none, { rows := db.rows ++ [{ id := newUuid, author := author, text := text }] }) := hdb
    rw [server, createQuote_valid_eq (NewQuoteDriver pick) newUuid clientId author text db ha ht,
      hdrv]

/-- Witness for C2: the spec's example body, sent with a client identifier,
against the wired server and an empty store. -/
theorem createQuote_created_witness :
    createQuote (server 0 [0x12, 0x3e, 0x45, 0x67, 0xe8, 0x9b, 0x12, 0xd3, 0xa4, 0x56, 0x42,
          0x66, 0x14, 0x17, 0x40, 0x00])
        (.ok { Id := some ⟨List.replicate 16 255, true⟩, Author := some " Twain",
               Text := some "Truth" }) { rows := [] } =
      some (⟨201, some "application/json",
        .object [("id", .str "123e4567-e89b-12d3-a456-426614174000"), ("author", .str " Twain"),
          ("text", .str "Truth")]⟩,
        { rows := [{ id := [0x12, 0x3e, 0x45, 0x67, 0xe8, 0x9b, 0x12, 0xd3, 0xa4, 0x56, 0x42,
          0x66, 0x14, 0x17, 0x40, 0x00], author := " Twain", text := "Truth" }] }) :=
  (createQuote_created (NewQuoteDriver 0)
    [0x12, 0x3e, 0x45, 0x67, 0xe8, 0x9b, 0x12, 0xd3, 0xa4, 0x56, 0x42, 0x66, 0x14, 0x17, 0x40,
      0x00]
    (some ⟨List.replicate 16 255, true⟩) " Twain" "Truth" { rows := [] }
    { rows := [{ id := [0x12, 0x3e, 0x45, 0x67, 0xe8, 0x9b, 0x12, 0xd3, 0xa4, 0x56, 0x42,
          0x66, 0x14, 0x17, 0x40, 0x00], author := " Twain", text := "Truth" }] }
    (by decide) (by decide) rfl).1

/-! ## Round trip at the repository -/

/-- A successful insert had a valid identifier and appended its row. -/
theorem CreateQuote_ok_inv (q : Quote) (db db1 : Db)
    (hok : QuoteDriver.CreateQuote q db = (none, db1)) :
    q.Id.Valid = true ∧
      db1 = { rows := db.rows ++ [{ id := q.Id.Bytes, author := q.Author, text := q.Text }] } := by
  unfold QuoteDriver.CreateQuote queryCreateQuote UUID.param at hok
  by_cases hv : q.Id.Valid = true
  · refine ⟨hv, ?_⟩
    simp only [hv, if_true] at hok
    by_cases hany : (db.rows.any fun r => decide (r.id = q.Id.Bytes)) = true
    · simp [hany] at hok
    · simp only [hany] at hok
      simp at hok
      exact hok.symm
  · simp [hv] at hok

/-- Selecting by an identifier that no row has gives no row. -/
theorem filter_id_absent (rows : List Row) (bytes : List Nat)
    (habs : ∀ r ∈ rows, r.id ≠ bytes) :
    rows.filter (fun r => decide (some r.id = some bytes)) = [] := by
  rw [List.filter_eq_nil_iff]
  intro r hr
  simpa using habs r hr

/-- C3: on a store that holds no row with the identifier of `q`, once the
repository's `CreateQuote q` has succeeded, `GetQuoteById` with that
identifier succeeds and returns `q` itself. -/
theorem CreateQuote_GetQuoteById_roundtrip (q : Quote) (db db1 : Db)
    (hfresh : ∀ r ∈ db.rows, r.id ≠ q.Id.Bytes)
    (hok : QuoteDriver.CreateQuote q db = (none, db1)) :
    QuoteDriver.GetQuoteById q.Id db1 = (.ok q, db1) := by
  obtain ⟨hv, hdb⟩ := CreateQuote_ok_inv q db db1 hok
  subst hdb
  have hsel : queryGetQuoteById q.Id.param
      { rows := db.rows ++ [{ id := q.Id.Bytes, author := q.Author, text := q.Text }] } =
      [(q.Author, q.Text)] := by
    simp only [queryGetQuoteById, UUID.param, hv, if_true, List.filter_append,
      filter_id_absent db.rows q.Id.Bytes hfresh]
    simp
  simp only [QuoteDriver.GetQuoteById, hsel, scanRow]

/-- Witness for C3: a quote inserted into a store that holds another row. -/
theorem CreateQuote_GetQuoteById_roundtrip_witness :
    QuoteDriver.GetQuoteById ⟨List.replicate 16 7, true⟩
        { rows := [{ id := List.replicate 16 1, author := "Twain", text := "Truth" },
                   { id := List.replicate 16 7, author := "Wilde", text := "Be yourself" }] } =
      (.ok { Id := ⟨List.replicate 16 7, true⟩, Author := "Wilde", Text := "Be yourself" },
        { rows := [{ id := List.replicate 16 1, author := "Twain", text := "Truth" },
                   { id := List.replicate 16 7, author := "Wilde", text := "Be yourself" }] }) :=
  CreateQuote_GetQuoteById_roundtrip
    { Id := ⟨List.replicate 16 7, true⟩, Author := "Wilde", Text := "Be yourself" }
    { rows := [{ id := List.replicate 16 1, author := "Twain", text := "Truth" }] }
    { rows := [{ id := List.replicate 16 1, author := "Twain", text := "Truth" },
               { id := List.replicate 16 7, author := "Wilde", text := "Be yourself" }] }
    (by decide) rfl

/-! ## Identifier syntax on delete -/

/-- A string of 36 bytes has a byte at every index below 36. -/
theorem goIndex_of_len (t : String) (i : Nat) (hlen : goLen t = 36) (hi : i < 36) :
    ∃ b, goIndex t i = some b := by
  unfold goLen at hlen
  unfold goIndex
  exact ⟨(goBytes t)[i], List.getElem?_eq_getElem (by omega)⟩

/-- The controller's `parseUUID` never panics: it is the shape test on the
trimmed string followed by `Scan`. -/
theorem parseUUID_eq (uuidStr : String) :
    parseUUID uuidStr =
      some (if goLen (TrimSpace uuidStr) ≠ 36 ∨ goIndex (TrimSpace uuidStr) 8 ≠ some 45 ∨
              goIndex (TrimSpace uuidStr) 13 ≠ some 45 ∨ goIndex (TrimSpace uuidStr) 18 ≠ some 45 ∨
              goIndex (TrimSpace uuidStr) 23 ≠ some 45
            then .error (.InvalidUUIDError (TrimSpace uuidStr))
            else UUID.Scan (TrimSpace uuidStr)) := by
  unfold parseUUID
  by_cases hlen : goLen (TrimSpace uuidStr) ≠ 36
  · simp [hlen]
  · have h36 : goLen (TrimSpace uuidStr) = 36 := not_not.mp hlen
    obtain ⟨b8, h8⟩ := goIndex_of_len _ 8 h36 (by omega)
    obtain ⟨b13, h13⟩ := goIndex_of_len _ 13 h36 (by omega)
    obtain ⟨b18, h18⟩ := goIndex_of_len _ 18 h36 (by omega)
    obtain ⟨b23, h23⟩ := goIndex_of_len _ 23 h36 (by omega)
    simp only [h36, h8, h13, h18, h23, ne_eq, not_true_eq_false, if_false, false_or,
      Option.some.injEq]
    by_cases e8 : b8 = 45 <;> by_cases e13 : b13 = 45 <;> by_cases e18 : b18 = 45 <;>
      by_cases e23 : b23 = 45 <;> simp [e8, e13, e18, e23]
    cases UUID.Scan (TrimSpace uuidStr) <;> rfl

/-- A character outside ASCII has a first byte of 128 or more. -/
theorem utf8Bytes_high (c : Char) (h : ¬ c.toNat < 128) : ∃ b ∈ utf8Bytes c, 128 ≤ b := by
  unfold utf8Bytes
  simp only
  split
  · omega
  · split
    · exact ⟨_, List.mem_cons_self _ _, by omega⟩
    · split
      · exact ⟨_, List.mem_cons_self _ _, by omega⟩
      · exact ⟨_, List.mem_cons_self _ _, by omega⟩

/-- An ASCII character is one byte. -/
theorem utf8Bytes_ascii (c : Char) (h : c.toNat < 128) : utf8Bytes c = [c.toNat] := by
  unfold utf8Bytes
  simp only
  rw [if_pos h]

/-- When the byte count differs from the character count, some byte is 128
or more. -/
theorem exists_high_byte (l : List Char) (h : (l.flatMap utf8Bytes).length ≠ l.length) :
    ∃ b ∈ l.flatMap utf8Bytes, 128 ≤ b := by
  induction l with
  | nil => simp at h
  | cons c cs ih =>
    by_cases hc : c.toNat < 128
    · have hcs : (cs.flatMap utf8Bytes).length ≠ cs.length := by
        intro heq
        apply h
        simp [List.flatMap_cons, utf8Bytes_ascii c hc, heq]
      obtain ⟨b, hb, hge⟩ := ih hcs
      exact ⟨b, by simp only [List.flatMap_cons, List.mem_append]; exact Or.inr hb, hge⟩
    · obtain ⟨b, hb, hge⟩ := utf8Bytes_high c hc
      exact ⟨b, by simp only [List.flatMap_cons, List.mem_append]; exact Or.inl hb, hge⟩

/-- A hexadecimal digit byte is below 128. -/
theorem fromHexChar_some_lt (b v : Nat) (h : fromHexChar b = some v) : b < 128 := by
  unfold fromHexChar at h
  split at h
  · omega
  · split at h
    · omega
    · split at h
      · omega
      · cases h

/-- A byte list that decodes as hexadecimal has only bytes below 128. -/
theorem hexDecode_bytes_lt : ∀ (ds out : List Nat), hexDecode ds = some out →
    ∀ b ∈ ds, b < 128
  | [], _, _, b, hb => by simp at hb
  | [_], _, h, _, _ => by simp [hexDecode] at h
  | p :: q :: rest, out, h, b, hb => by
    unfold hexDecode at h
    cases hp : fromHexChar p with
    | none => simp [hp] at h
    | some a =>
      cases hq : fromHexChar q with
      | none => simp [hp, hq] at h
      | some c =>
        cases hrest : hexDecode rest with
        | none => simp [hp, hq, hrest] at h
        | some bs =>
          simp only [List.mem_cons] at hb
          rcases hb with rfl | rfl | hb
          · exact fromHexChar_some_lt _ a hp
          · exact fromHexChar_some_lt _ c hq
          · exact hexDecode_bytes_lt rest bs hrest b hb

/-- An element of a list lies before, at or after any given index. -/
theorem mem_take_or_at_or_drop {α : Type} (l : List α) (i : Nat) (x : α) (hx : x ∈ l) :
    x ∈ l.take i ∨ l[i]? = some x ∨ x ∈ l.drop (i + 1) := by
  induction l generalizing i with
  | nil => simp at hx
  | cons y ys ih =>
    cases i with
    | zero =>
      rcases List.mem_cons.mp hx with rfl | h
      · exact Or.inr (Or.inl (by simp))
      · exact Or.inr (Or.inr (by simpa using h))
    | succ j =>
      rcases List.mem_cons.mp hx with rfl | h
      · exact Or.inl (by simp)
      · rcases ih j h with h1 | h1 | h1
        · exact Or.inl (by simp [h1])
        · exact Or.inr (Or.inl (by simpa using h1))
        · exact Or.inr (Or.inr (by simpa using h1))

/-- A byte of 128 or more survives the removal of four separator bytes. -/
theorem high_byte_mem_digits (b : List Nat) (x : Nat) (hx : x ∈ b) (hhigh : 128 ≤ x)
    (h8 : b[8]? = some 45) (h13 : b[13]? = some 45) (h18 : b[18]? = some 45)
    (h23 : b[23]? = some 45) :
    x ∈ b.take 8 ++ (b.drop 9).take 4 ++ (b.drop 14).take 4 ++ (b.drop 19).take 4 ++ b.drop 24 := by
  simp only [List.mem_append]
  rcases mem_take_or_at_or_drop b 8 x hx with h | h | h
  · exact Or.inl (Or.inl (Or.inl (Or.inl h)))
  · rw [h8] at h; cases h; omega
  · rcases mem_take_or_at_or_drop (b.drop 9) 4 x h with h | h | h
    · exact Or.inl (Or.inl (Or.inl (Or.inr h)))
    · rw [List.getElem?_drop, h13] at h; cases h; omega
    · rw [List.drop_drop] at h
      rcases mem_take_or_at_or_drop (b.drop 14) 4 x h with h | h | h
      · exact Or.inl (Or.inl (Or.inr h))
      · rw [List.getElem?_drop, h18] at h; cases h; omega
      · rw [List.drop_drop] at h
        rcases mem_take_or_at_or_drop (b.drop 19) 4 x h with h | h | h
        · exact Or.inl (Or.inr h)
        · rw [List.getElem?_drop, h23] at h; cases h; omega
        · rw [List.drop_drop] at h
          exact Or.inr h
/-- On a 36-byte string with its four separators in place, `Scan` fails
when some byte is 128 or more. -/
theorem Scan_error_of_high_byte (t : String) (hlen : goLen t = 36)
    (h8 : goIndex t 8 = some 45) (h13 : goIndex t 13 = some 45) (h18 : goIndex t 18 = some 45)
    (h23 : goIndex t 23 = some 45) (x : Nat) (hx : x ∈ goBytes t) (hhigh : 128 ≤ x) :
    ∃ e : Error, UUID.Scan t = .error e := by
  have hmem := high_byte_mem_digits (goBytes t) x hx hhigh h8 h13 h18 h23
  have hlen1 : (goBytes t).length = 36 := hlen
  cases hdec : hexDecode ((goBytes t).take 8 ++ ((goBytes t).drop 9).take 4 ++
      ((goBytes t).drop 14).take 4 ++ ((goBytes t).drop 19).take 4 ++ (goBytes t).drop 24) with
  | none =>
    exact ⟨.other "encoding/hex: invalid byte", by
      simp only [UUID.Scan, pgtypeParseUUID, hlen1, if_true, hdec]⟩
  | some buf =>
    have := hexDecode_bytes_lt _ buf hdec x hmem
    omega

/-- The controller's `parseUUID` returns an error for a string that, once
trimmed, has not 36 characters, or not 36 bytes, or lacks a separator. -/
theorem parseUUID_malformed (idStr : String)
    (h : (TrimSpace idStr).length ≠ 36 ∨ goLen (TrimSpace idStr) ≠ 36 ∨
         goIndex (TrimSpace idStr) 8 ≠ some 45 ∨ goIndex (TrimSpace idStr) 13 ≠ some 45 ∨
         goIndex (TrimSpace idStr) 18 ≠ some 45 ∨ goIndex (TrimSpace idStr) 23 ≠ some 45) :
    ∃ e : Error, parseUUID idStr = some (.error e) := by
  rw [parseUUID_eq]
  by_cases hshape : goLen (TrimSpace idStr) ≠ 36 ∨ goIndex (TrimSpace idStr) 8 ≠ some 45 ∨
      goIndex (TrimSpace idStr) 13 ≠ some 45 ∨ goIndex (TrimSpace idStr) 18 ≠ some 45 ∨
      goIndex (TrimSpace idStr) 23 ≠ some 45
  · exact ⟨_, by rw [if_pos hshape]⟩
  · rw [if_neg hshape]
    rcases h with hchars | h
    · simp only [not_or, not_not] at hshape
      obtain ⟨hlen, h8, h13, h18, h23⟩ := hshape
      have hne : ((TrimSpace idStr).data.flatMap utf8Bytes).length ≠ (TrimSpace idStr).data.length := by
        intro heq
        apply hchars
        have hlen1 : ((TrimSpace idStr).data.flatMap utf8Bytes).length = 36 := hlen
        rw [String.length, ← heq, hlen1]
      obtain ⟨x, hx, hhigh⟩ := exists_high_byte _ hne
      obtain ⟨e, he⟩ := Scan_error_of_high_byte (TrimSpace idStr) hlen h8 h13 h18 h23 x hx hhigh
      exact ⟨e, by rw [he]⟩
    · exact absurd h hshape

/-- C4, as amended: when the identifier string, after its surrounding white
space is trimmed, has the wrong length (not exactly 36 characters, or not
exactly 36 bytes) or lacks the separator at byte 8, 13, 18 or 23,
`deleteQuote` answers 400 with an error object; the answer is the same for
every service and the state comes back as it went in, so neither the service
nor the store is reached. -/
theorem deleteQuote_rejects_malformed (idStr : String)
    (h : (TrimSpace idStr).length ≠ 36 ∨ goLen (TrimSpace idStr) ≠ 36 ∨
         goIndex (TrimSpace idStr) 8 ≠ some 45 ∨ goIndex (TrimSpace idStr) 13 ≠ some 45 ∨
         goIndex (TrimSpace idStr) 18 ≠ some 45 ∨ goIndex (TrimSpace idStr) 23 ≠ some 45) :
    ∃ message : String, ∀ (σ : Type) (service : QuoteServiceInterface σ) (s : σ),
      deleteQuote service idStr s =
        some (⟨400, some "application/json", .object [("error", .str message)]⟩, s) := by
  by_cases hempty : idStr = ""
  · exact ⟨"Quote ID is required", fun σ service s => by
      simp only [deleteQuote]
      rw [if_pos hempty]
      rfl⟩
  · obtain ⟨e, he⟩ := parseUUID_malformed idStr h
    exact ⟨"Invalid UUID format", fun σ service s => by
      simp only [deleteQuote]
      rw [if_neg hempty, he]
      rfl⟩

/-- Witness for C4 as amended: an identifier with one separator missing. -/
theorem deleteQuote_rejects_malformed_witness :
    goIndex (TrimSpace "123e4567-e89b012d3-a456-426614174000") 13 ≠ some 45 ∧
    ∃ message : String, ∀ (σ : Type) (service : QuoteServiceInterface σ) (s : σ),
      deleteQuote service "123e4567-e89b012d3-a456-426614174000" s =
        some (⟨400, some "application/json", .object [("error", .str message)]⟩, s) :=
  ⟨by decide, deleteQuote_rejects_malformed "123e4567-e89b012d3-a456-426614174000"
    (Or.inr (Or.inr (Or.inr (Or.inl (by decide)))))⟩

/-- Counterexample to C4 as stated: the identifier string below is 37
characters (and bytes) long and has no separator at byte 8, yet `deleteQuote` reaches the store,
removes the row and answers 204. -/
theorem deleteQuote_padded_identifier_reaches_store :
    " 123e4567-e89b-12d3-a456-426614174000".length = 37 ∧
    goLen " 123e4567-e89b-12d3-a456-426614174000" = 37 ∧
    goIndex " 123e4567-e89b-12d3-a456-426614174000" 8 = some 55 ∧
    deleteQuote (server 0 []) " 123e4567-e89b-12d3-a456-426614174000"
        { rows := [{ id := [0x12, 0x3e, 0x45, 0x67, 0xe8, 0x9b, 0x12, 0xd3, 0xa4, 0x56, 0x42,
            0x66, 0x14, 0x17, 0x40, 0x00], author := "Twain", text := "Truth" }] } =
      some (⟨204, none, .empty⟩, { rows := [] }) :=
  ⟨by decide, by decide, by decide, by rfl⟩

/-! ## Deleting a quote -/

/-- Selecting by an identifier argument that no row matches gives no row;
a NULL argument matches none. -/
theorem queryGetQuoteById_absent (db : Db) (i : UUID) (habs : ∀ r ∈ db.rows, r.id ≠ i.Bytes) :
    queryGetQuoteById i.param db = [] := by
  unfold queryGetQuoteById UUID.param
  by_cases hv : i.Valid = true
  · simp only [hv, if_true, filter_id_absent db.rows i.Bytes habs, List.map_nil]
  · simp [hv]

/-- The repository's lookup of an identifier that no row has reports
`ErrNoRows` and leaves the store as it was. -/
theorem GetQuoteById_absent (db : Db) (i : UUID) (habs : ∀ r ∈ db.rows, r.id ≠ i.Bytes) :
    QuoteDriver.GetQuoteById i db = (.error .ErrNoRows, db) := by
  simp only [QuoteDriver.GetQuoteById, queryGetQuoteById_absent db i habs, scanRow]

/-- A string that `parseUUID` accepts is not empty. -/
theorem parseUUID_ok_ne_empty (idStr : String) (i : UUID) (hp : parseUUID idStr = some (.ok i)) :
    idStr ≠ "" := by
  rintro rfl
  have he : parseUUID "" = some (.error (.InvalidUUIDError "")) := by rfl
  rw [he] at hp
  cases hp

/-- C5: when no stored row has the identifier `i`, the service's
`DeleteQuote i` returns an error and the store is unchanged, whatever the
repository's delete would do (it is not invoked); and for an identifier string
that parses to `i` the handler answers 500. -/
theorem DeleteQuote_absent_fails (db : Db) (i : UUID)
    (habs : ∀ r ∈ db.rows, r.id ≠ i.Bytes) :
    (∀ (pick : Nat) (del : UUID → Db → Option Error × Db),
      QuoteService.DeleteQuote { NewQuoteDriver pick with DeleteQuote := del } i db =
        (some .ErrNoRows, db)) ∧
    (∀ (pick : Nat) (newUuid : List Nat) (idStr : String), parseUUID idStr = some (.ok i) →
      deleteQuote (server pick newUuid) idStr db =
        some (⟨500, some "application/json",
          .object [("error", .str "Failed to delete quote")]⟩, db)) := by
  have hget := GetQuoteById_absent db i habs
  constructor
  · intro pick del
    simp only [QuoteService.DeleteQuote, NewQuoteDriver, hget]
  · intro pick newUuid idStr hp
    have hsvc : (server pick newUuid).DeleteQuote i db = (some .ErrNoRows, db) := by
      simp only [server, NewQuoteService, QuoteService.DeleteQuote, NewQuoteDriver, hget]
    simp only [deleteQuote]
    rw [if_neg (parseUUID_ok_ne_empty idStr i hp), hp]
    simp only [hsvc]
    rfl

/-- Witness for C5: deleting an identifier the one-row store does not hold. -/
theorem DeleteQuote_absent_fails_witness :
    deleteQuote (server 0 []) "00000000-0000-0000-0000-000000000002"
        { rows := [{ id := List.replicate 16 1, author := "Twain", text := "Truth" }] } =
      some (⟨500, some "application/json", .object [("error", .str "Failed to delete quote")]⟩,
        { rows := [{ id := List.replicate 16 1, author := "Twain", text := "Truth" }] }) :=
  (DeleteQuote_absent_fails
    { rows := [{ id := List.replicate 16 1, author := "Twain", text := "Truth" }] }
    ⟨[0, 0, 0, 0, 0, 0, 0, 0, 0, 0, 0, 0, 0, 0, 0, 2], true⟩ (by decide)).2 0 []
    "00000000-0000-0000-0000-000000000002" (by rfl)

/-- In a table with pairwise distinct identifiers, the rows before and after
a given row carry other identifiers. -/
theorem ids_distinct_split (pre post : List Row) (r : Row)
    (hnodup : ((pre ++ r :: post).map Row.id).Nodup) :
    ∀ x ∈ pre ++ post, x.id ≠ r.id := by
  rw [List.map_append, List.map_cons, List.nodup_middle, List.nodup_cons] at hnodup
  intro x hx hid
  apply hnodup.1
  rw [← hid, ← List.map_append]
  exact List.mem_map_of_mem Row.id hx

/-- The delete statement removes the one row with the identifier and keeps
the others in place. -/
theorem queryDeleteQuote_split (pre post : List Row) (r : Row)
    (hother : ∀ x ∈ pre ++ post, x.id ≠ r.id) :
    queryDeleteQuote (scanUUID r.id).param { rows := pre ++ r :: post } =
      { rows := pre ++ post } := by
  have hpre : pre.filter (fun x => decide ¬ (some x.id = some r.id)) = pre := by
    rw [List.filter_eq_self]
    intro x hx
    simpa using hother x (List.mem_append_left post hx)
  have hpost : post.filter (fun x => decide ¬ (some x.id = some r.id)) = post := by
    rw [List.filter_eq_self]
    intro x hx
    simpa using hother x (List.mem_append_right pre hx)
  simp only [queryDeleteQuote, scanUUID, UUID.param, if_true, List.filter_append, hpre]
  rw [List.filter_cons_of_neg (by simp), hpost]

/-- The lookup of a stored row's identifier succeeds. -/
theorem GetQuoteById_present (pre post : List Row) (r : Row)
    (hother : ∀ x ∈ pre ++ post, x.id ≠ r.id) :
    QuoteDriver.GetQuoteById (scanUUID r.id) { rows := pre ++ r :: post } =
      (.ok { Id := scanUUID r.id, Author := r.author, Text := r.text },
        { rows := pre ++ r :: post }) := by
  have hpre := filter_id_absent pre r.id (fun x hx => hother x (List.mem_append_left post hx))
  have hpost := filter_id_absent post r.id (fun x hx => hother x (List.mem_append_right pre hx))
  have hsel : queryGetQuoteById (scanUUID r.id).param { rows := pre ++ r :: post } =
      [(r.author, r.text)] := by
    simp only [queryGetQuoteById, scanUUID, UUID.param, if_true, List.filter_append, hpre]
    rw [List.filter_cons_of_pos (by simp), hpost]
    rfl
  simp only [QuoteDriver.GetQuoteById, hsel, scanRow]

/-- C6: in a store whose identifiers are pairwise distinct, deleting the
identifier of a stored row `r` succeeds; the store that results is the
original with that one row taken out and the rows before and after it as they
were; a lookup of the identifier then reports `ErrNoRows`; and for an
identifier string that parses to it the handler answers 204 with no body. -/
theorem DeleteQuote_present_removes_row (db : Db) (r : Row) (hr : r ∈ db.rows)
    (hnodup : (db.rows.map Row.id).Nodup) :
    ∃ pre post : List Row, db.rows = pre ++ r :: post ∧
      (∀ pick : Nat, QuoteService.DeleteQuote (NewQuoteDriver pick) (scanUUID r.id) db =
        (none, { rows := pre ++ post })) ∧
      QuoteDriver.GetQuoteById (scanUUID r.id) { rows := pre ++ post } =
        (.error .ErrNoRows, { rows := pre ++ post }) ∧
      (∀ (pick : Nat) (newUuid : List Nat) (idStr : String),
        parseUUID idStr = some (.ok (scanUUID r.id)) →
        deleteQuote (server pick newUuid) idStr db =
          some (⟨204, none, .empty⟩, { rows := pre ++ post })) := by
  obtain ⟨pre, post, hsplit⟩ := List.append_of_mem hr
  obtain ⟨rows⟩ := db
  simp only at hsplit hnodup
  subst hsplit
  have hother := ids_distinct_split pre post r hnodup
  have hsvc : ∀ pick : Nat,
      QuoteService.DeleteQuote (NewQuoteDriver pick) (scanUUID r.id) { rows := pre ++ r :: post } =
        (none, { rows := pre ++ post }) := by
    intro pick
    simp only [QuoteService.DeleteQuote, NewQuoteDriver, GetQuoteById_present pre post r hother,
      QuoteDriver.DeleteQuote, queryDeleteQuote_split pre post r hother]
  refine ⟨pre, post, rfl, hsvc, ?_, ?_⟩
  · exact GetQuoteById_absent { rows := pre ++ post } (scanUUID r.id) hother
  · intro pick newUuid idStr hp
    have hsvc2 : (server pick newUuid).DeleteQuote (scanUUID r.id) { rows := pre ++ r :: post } =
        (none, { rows := pre ++ post }) := hsvc pick
    simp only [deleteQuote]
    rw [if_neg (parseUUID_ok_ne_empty idStr _ hp), hp]
    simp only [hsvc2]
    rfl

/-- Witness for C6: deleting the middle row of a three-row store through the
handler. -/
theorem DeleteQuote_present_removes_row_witness :
    ∃ pre post : List Row,
      [({ id := List.replicate 16 1, author := "Twain", text := "Truth" } : Row),
        { id := List.replicate 16 2, author := "Wilde", text := "Be yourself" },
        { id := List.replicate 16 3, author := "Twain", text := "Travel" }] =
        pre ++ { id := List.replicate 16 2, author := "Wilde", text := "Be yourself" } :: post ∧
      deleteQuote (server 0 []) "02020202-0202-0202-0202-020202020202"
          { rows := [{ id := List.replicate 16 1, author := "Twain", text := "Truth" },
            { id := List.replicate 16 2, author := "Wilde", text := "Be yourself" },
            { id := List.replicate 16 3, author := "Twain", text := "Travel" }] } =
        some (⟨204, none, .empty⟩, { rows := pre ++ post }) := by
  obtain ⟨pre, post, hsplit, _, _, hhandler⟩ := DeleteQuote_present_removes_row
    { rows := [{ id := List.replicate 16 1, author := "Twain", text := "Truth" },
      { id := List.replicate 16 2, author := "Wilde", text := "Be yourself" },
      { id := List.replicate 16 3, author := "Twain", text := "Travel" }] }
    { id := List.replicate 16 2, author := "Wilde", text := "Be yourself" }
    (by decide) (by decide)
  exact ⟨pre, post, hsplit, hhandler 0 [] "02020202-0202-0202-0202-020202020202" (by rfl)⟩

/-! ## Listing -/

/-- A loop that appends one element per input element builds the mapped
list. -/
theorem foldl_append_eq_map {α β : Type} (f : α → β) (l : List α) (init : List β) :
    l.foldl (fun acc x => acc ++ [f x]) init = init ++ l.map f := by
  induction l generalizing init with
  | nil => simp
  | cons x xs ih => simp [ih]

/-- Overwriting the slot right after a prefix. -/
theorem set_after_prefix {α : Type} (done : List α) (z x : α) (rest : List α) :
    (done ++ z :: rest).set done.length x = done ++ x :: rest := by
  induction done with
  | nil => rfl
  | cons d ds ih => simp [ih]

/-- The slot-filling loop, started after `done` filled slots. -/
theorem fill_slots_eq_map {α β : Type} (f : α → β) (z : β) (l : List α) (done : List β) :
    (l.enumFrom done.length).foldl (fun acc iq => acc.set iq.1 (f iq.2))
        (done ++ List.replicate l.length z) = done ++ l.map f := by
  induction l generalizing done with
  | nil => simp
  | cons x xs ih =>
    have hlen : (done ++ [f x]).length = done.length + 1 := by simp
    simp only [List.enumFrom_cons, List.foldl_cons, List.length_cons, List.replicate_succ,
      set_after_prefix, List.map_cons]
    have := ih (done ++ [f x])
    rw [hlen] at this
    simpa using this

/-- The service's mapping loop yields one transfer object per record, in
order, with all three fields set. -/
theorem quotesToDtos_eq_map (quotes : List Quote) :
    quotesToDtos quotes =
      quotes.map (fun q => { Id := some q.Id, Author := some q.Author, Text := some q.Text }) := by
  have := fill_slots_eq_map
    (fun q : Quote => ({ Id := some q.Id, Author := some q.Author, Text := some q.Text } : QuoteDto))
    { Id := none, Author := none, Text := none } quotes []
  simpa [quotesToDtos, List.enum] using this

/-- What the repository's `GetQuoteByAuthor` returns: the rows whose author
is the argument, in storage order. -/
theorem GetQuoteByAuthor_eq (db : Db) (author : String) :
    QuoteDriver.GetQuoteByAuthor author db =
      (.ok ((db.rows.filter (fun r => r.author = author)).map
        (fun r => { Id := scanUUID r.id, Author := author, Text := r.text })), db) := by
  simp only [QuoteDriver.GetQuoteByAuthor, queryGetQuoteByAuthor, foldl_append_eq_map,
    List.nil_append, List.map_map]
  rfl

/-- C7: for a non-empty author `A`, the repository's listing by author is
exactly the stored rows whose author equals `A`, one quote per such row in
storage order, each with the row's identifier and text and the author `A`;
rows with another author contribute nothing. The request
`GET /quotes?author=A` answers 200 with those quotes. -/
theorem GetQuoteByAuthor_exact_subset (db : Db) (A : String) (hA : A ≠ "") :
    QuoteDriver.GetQuoteByAuthor A db =
      (.ok ((db.rows.filter (fun r => r.author = A)).map
        (fun r => { Id := scanUUID r.id, Author := A, Text := r.text })), db) ∧
    (∀ q : Quote,
      q ∈ (db.rows.filter (fun r => r.author = A)).map
          (fun r => { Id := scanUUID r.id, Author := A, Text := r.text }) ↔
        ∃ r ∈ db.rows, r.author = A ∧
          q = { Id := scanUUID r.id, Author := r.author, Text := r.text }) ∧
    ∀ (pick : Nat) (newUuid : List Nat),
      getQuotes (server pick newUuid) [("author", [A])] db =
        (⟨200, some "application/json",
          .array ((db.rows.filter (fun r => r.author = A)).map
            (fun r => [("id", .str (encodeUUID r.id)), ("author", .str A),
              ("text", .str r.text)]))⟩, db) := by
  refine ⟨GetQuoteByAuthor_eq db A, ?_, ?_⟩
  · intro q
    rw [List.mem_map]
    constructor
    · rintro ⟨r, hr, rfl⟩
      have hmem := List.mem_filter.mp hr
      have ha : r.author = A := by simpa using hmem.2
      exact ⟨r, hmem.1, ha, by rw [ha]⟩
    · rintro ⟨r, hr, ha, rfl⟩
      exact ⟨r, List.mem_filter.mpr ⟨hr, by simpa using ha⟩, by rw [ha]⟩
  · intro pick newUuid
    have hget : Values.Get [("author", [A])] "author" = A := by
      simp [Values.Get, List.lookup]
    have hsvc : (server pick newUuid).GetQuoteByAuthor A db =
        (.ok (quotesToDtos ((db.rows.filter (fun r => r.author = A)).map
          (fun r => { Id := scanUUID r.id, Author := A, Text := r.text }))), db) := by
      simp only [server, NewQuoteService, QuoteService.GetQuoteByAuthor, NewQuoteDriver,
        GetQuoteByAuthor_eq]
    simp only [getQuotes, hget, ne_eq, hA, not_false_eq_true, if_true, hsvc, quotesToDtos_eq_map,
      List.map_map, writeJSONResponse, StatusOK]
    rfl

/-- Witness for C7: the spec's author against a store with two of that
author's quotes, one of another author and one whose author differs in case. -/
theorem GetQuoteByAuthor_exact_subset_witness :
    getQuotes (server 0 []) [("author", ["Twain"])]
        { rows := [{ id := List.replicate 16 1, author := "Twain", text := "Truth" },
          { id := List.replicate 16 2, author := "Wilde", text := "Be yourself" },
          { id := List.replicate 16 3, author := "twain", text := "lower" },
          { id := List.replicate 16 4, author := "Twain", text := "Travel" }] } =
      (⟨200, some "application/json",
        .array [[("id", .str "01010101-0101-0101-0101-010101010101"), ("author", .str "Twain"),
            ("text", .str "Truth")],
          [("id", .str "04040404-0404-0404-0404-040404040404"), ("author", .str "Twain"),
            ("text", .str "Travel")]]⟩,
        { rows := [{ id := List.replicate 16 1, author := "Twain", text := "Truth" },
          { id := List.replicate 16 2, author := "Wilde", text := "Be yourself" },
          { id := List.replicate 16 3, author := "twain", text := "lower" },
          { id := List.replicate 16 4, author := "Twain", text := "Travel" }] }) :=
  (GetQuoteByAuthor_exact_subset
    { rows := [{ id := List.replicate 16 1, author := "Twain", text := "Truth" },
      { id := List.replicate 16 2, author := "Wilde", text := "Be yourself" },
      { id := List.replicate 16 3, author := "twain", text := "lower" },
      { id := List.replicate 16 4, author := "Twain", text := "Travel" }] }
    "Twain" (by decide)).2.2 0 []

/-- Length and entries of the mapped list, by position. -/
theorem quotesToDtos_pointwise (quotes : List Quote) :
    (quotesToDtos quotes).length = quotes.length ∧
    ∀ (k : Nat) (q : Quote), quotes[k]? = some q →
      (quotesToDtos quotes)[k]? =
        some { Id := some q.Id, Author := some q.Author, Text := some q.Text } := by
  rw [quotesToDtos_eq_map]
  refine ⟨List.length_map _ _, ?_⟩
  intro k q hk
  rw [List.getElem?_map, hk]
  rfl

/-- C8: whatever list of records the repository's `GetAllQuotes` returns,
the service's `GetAllQuotes` returns a list of transfer objects of the same
length whose `k`-th entry has all three fields present and equal to the
identifier, author and text of the `k`-th record; and likewise, on its own,
whatever list the repository's `GetQuoteByAuthor` returns for an author, the
service's `GetQuoteByAuthor` returns for that author. Neither half supposes
anything of the repository's other method. -/
theorem service_listing_one_to_one {σ : Type} (driver : QuoteDriverInterface σ) (s : σ) :
    (∀ (quotes : List Quote) (s1 : σ), driver.GetAllQuotes s = (.ok quotes, s1) →
      ∃ dtos : List QuoteDto, QuoteService.GetAllQuotes driver s = (.ok dtos, s1) ∧
        dtos.length = quotes.length ∧
        ∀ (k : Nat) (q : Quote), quotes[k]? = some q →
          dtos[k]? = some { Id := some q.Id, Author := some q.Author, Text := some q.Text }) ∧
    (∀ (author : String) (quotes : List Quote) (s1 : σ),
      driver.GetQuoteByAuthor author s = (.ok quotes, s1) →
      ∃ dtos : List QuoteDto, QuoteService.GetQuoteByAuthor driver author s = (.ok dtos, s1) ∧
        dtos.length = quotes.length ∧
        ∀ (k : Nat) (q : Quote), quotes[k]? = some q →
          dtos[k]? = some { Id := some q.Id, Author := some q.Author, Text := some q.Text }) := by
  constructor
  · intro quotes s1 hall
    refine ⟨quotesToDtos quotes, ?_, quotesToDtos_pointwise quotes⟩
    simp only [QuoteService.GetAllQuotes, hall]
  · intro author quotes s1 hby
    refine ⟨quotesToDtos quotes, ?_, quotesToDtos_pointwise quotes⟩
    simp only [QuoteService.GetQuoteByAuthor, hby]

/-- Witness for C8: listing all over a repository whose listing by author
fails, and listing by author over a repository whose listing of all fails,
each on a store of three rows. -/
theorem service_listing_one_to_one_witness :
    (∃ dtos : List QuoteDto,
      QuoteService.GetAllQuotes
          { NewQuoteDriver 0 with GetQuoteByAuthor := fun _ db => (.error (.PgError "57014"), db) }
          { rows := [{ id := List.replicate 16 1, author := "Twain", text := "Truth" },
            { id := List.replicate 16 2, author := "Wilde", text := "Be yourself" },
            { id := List.replicate 16 3, author := "Twain", text := "Travel" }] } =
        (.ok dtos,
          { rows := [{ id := List.replicate 16 1, author := "Twain", text := "Truth" },
            { id := List.replicate 16 2, author := "Wilde", text := "Be yourself" },
            { id := List.replicate 16 3, author := "Twain", text := "Travel" }] }) ∧
      dtos.length = 3 ∧
      dtos[1]? = some (QuoteDto.mk (some ⟨List.replicate 16 2, true⟩) (some "Wilde")
        (some "Be yourself"))) ∧
    ∃ dtos : List QuoteDto,
      QuoteService.GetQuoteByAuthor
          { NewQuoteDriver 0 with GetAllQuotes := fun db => (.error (.PgError "57014"), db) }
          "Twain"
          { rows := [{ id := List.replicate 16 1, author := "Twain", text := "Truth" },
            { id := List.replicate 16 2, author := "Wilde", text := "Be yourself" },
            { id := List.replicate 16 3, author := "Twain", text := "Travel" }] } =
        (.ok dtos,
          { rows := [{ id := List.replicate 16 1, author := "Twain", text := "Truth" },
            { id := List.replicate 16 2, author := "Wilde", text := "Be yourself" },
            { id := List.replicate 16 3, author := "Twain", text := "Travel" }] }) ∧
      dtos.length = 2 ∧
      dtos[1]? = some (QuoteDto.mk (some ⟨List.replicate 16 3, true⟩) (some "Twain")
        (some "Travel")) := by
  obtain ⟨dtosAll, hsvcAll, hlenAll, hkAll⟩ := (service_listing_one_to_one
    { NewQuoteDriver 0 with GetQuoteByAuthor := fun _ db => (.error (.PgError "57014"), db) }
    { rows := [{ id := List.replicate 16 1, author := "Twain", text := "Truth" },
      { id := List.replicate 16 2, author := "Wilde", text := "Be yourself" },
      { id := List.replicate 16 3, author := "Twain", text := "Travel" }] }).1
    [{ Id := ⟨List.replicate 16 1, true⟩, Author := "Twain", Text := "Truth" },
      { Id := ⟨List.replicate 16 2, true⟩, Author := "Wilde", Text := "Be yourself" },
      { Id := ⟨List.replicate 16 3, true⟩, Author := "Twain", Text := "Travel" }]
    _ rfl
  obtain ⟨dtosBy, hsvcBy, hlenBy, hkBy⟩ := (service_listing_one_to_one
    { NewQuoteDriver 0 with GetAllQuotes := fun db => (.error (.PgError "57014"), db) }
    { rows := [{ id := List.replicate 16 1, author := "Twain", text := "Truth" },
      { id := List.replicate 16 2, author := "Wilde", text := "Be yourself" },
      { id := List.replicate 16 3, author := "Twain", text := "Travel" }] }).2
    "Twain"
    [{ Id := ⟨List.replicate 16 1, true⟩, Author := "Twain", Text := "Truth" },
      { Id := ⟨List.replicate 16 3, true⟩, Author := "Twain", Text := "Travel" }]
    _ rfl
  exact ⟨⟨dtosAll, hsvcAll, hlenAll,
      hkAll 1 { Id := ⟨List.replicate 16 2, true⟩, Author := "Wilde", Text := "Be yourself" } rfl⟩,
    dtosBy, hsvcBy, hlenBy,
    hkBy 1 { Id := ⟨List.replicate 16 3, true⟩, Author := "Twain", Text := "Travel" } rfl⟩

/-! ## Random quote -/

/-- The handler's answer when the store's random order puts a row first. -/
theorem getRandomQuote_of_pick (db : Db) (pick : Nat) (newUuid : List Nat) (r : Row)
    (hr : db.rows[pick % db.rows.length]? = some r) :
    getRandomQuote (server pick newUuid) db =
      (⟨200, some "application/json", .object r.toJson⟩, db) := by
  have hdrv : QuoteDriver.GetRandomQuote pick db =
      (.ok { Id := scanUUID r.id, Author := r.author, Text := r.text }, db) := by
    simp only [QuoteDriver.GetRandomQuote, queryGetRandomQuote, hr, scanRow]
  have hsvc : (server pick newUuid).GetRandomQuote db =
      (.ok { Id := some (scanUUID r.id), Author := some r.author, Text := some r.text }, db) := by
    simp only [server, NewQuoteService, QuoteService.GetRandomQuote, NewQuoteDriver, hdrv]
  simp only [getRandomQuote, hsvc]
  rfl

/-- C9: on a non-empty store, whatever position the store's random order
puts first, `GET /quotes/random` answers 200 with the identifier, author and
text of a row that is in the store, and every stored row is the answer for
some order; on the empty store the repository reports `ErrNoRows` and the
handler answers 500. -/
theorem getRandomQuote_returns_stored_row (db : Db) (pick : Nat) (newUuid : List Nat) :
    (db.rows ≠ [] → ∃ r ∈ db.rows,
      getRandomQuote (server pick newUuid) db =
        (⟨200, some "application/json", .object r.toJson⟩, db)) ∧
    (∀ r ∈ db.rows, ∃ pick1 : Nat,
      getRandomQuote (server pick1 newUuid) db =
        (⟨200, some "application/json", .object r.toJson⟩, db)) ∧
    (db.rows = [] →
      QuoteDriver.GetRandomQuote pick db = (.error .ErrNoRows, db) ∧
      getRandomQuote (server pick newUuid) db =
        (⟨500, some "application/json",
          .object [("error", .str "Failed to retrieve random quote")]⟩, db)) := by
  refine ⟨?_, ?_, ?_⟩
  · intro hne
    have hpos : 0 < db.rows.length := List.length_pos.mpr hne
    have hlt : pick % db.rows.length < db.rows.length := Nat.mod_lt _ hpos
    exact ⟨db.rows[pick % db.rows.length], List.getElem_mem _,
      getRandomQuote_of_pick db pick newUuid _ (List.getElem?_eq_getElem hlt)⟩
  · intro r hr
    obtain ⟨k, hk, hkr⟩ := List.getElem_of_mem hr
    refine ⟨k, getRandomQuote_of_pick db k newUuid r ?_⟩
    rw [Nat.mod_eq_of_lt hk, List.getElem?_eq_getElem hk, hkr]
  · intro hempty
    have hdrv : QuoteDriver.GetRandomQuote pick db = (.error .ErrNoRows, db) := by
      simp [QuoteDriver.GetRandomQuote, queryGetRandomQuote, hempty, scanRow]
    refine ⟨hdrv, ?_⟩
    have hsvc : (server pick newUuid).GetRandomQuote db = (.error .ErrNoRows, db) := by
      simp only [server, NewQuoteService, QuoteService.GetRandomQuote, NewQuoteDriver, hdrv]
    simp only [getRandomQuote, hsvc]
    rfl

/-- Witness for C9: a two-row store under one random order, and the empty
store. -/
theorem getRandomQuote_returns_stored_row_witness :
    (∃ r ∈ [({ id := List.replicate 16 1, author := "Twain", text := "Truth" } : Row),
        { id := List.replicate 16 2, author := "Wilde", text := "Be yourself" }],
      getRandomQuote (server 5 [])
          { rows := [{ id := List.replicate 16 1, author := "Twain", text := "Truth" },
            { id := List.replicate 16 2, author := "Wilde", text := "Be yourself" }] } =
        (⟨200, some "application/json", .object r.toJson⟩,
          { rows := [{ id := List.replicate 16 1, author := "Twain", text := "Truth" },
            { id := List.replicate 16 2, author := "Wilde", text := "Be yourself" }] })) ∧
    getRandomQuote (server 5 []) { rows := [] } =
      (⟨500, some "application/json",
        .object [("error", .str "Failed to retrieve random quote")]⟩, { rows := [] }) :=
  ⟨(getRandomQuote_returns_stored_row
      { rows := [{ id := List.replicate 16 1, author := "Twain", text := "Truth" },
        { id := List.replicate 16 2, author := "Wilde", text := "Be yourself" }] } 5 []).1
      (by decide),
    ((getRandomQuote_returns_stored_row { rows := [] } 5 []).2.2 rfl).2⟩

/-! ## Error responses -/

/-- Every answer of `createQuote` with status 400 is an error object. -/
theorem createQuote_400_shape {σ : Type} (service : QuoteServiceInterface σ)
    (decoded : Except Error QuoteDto) (s s2 : σ) (r : Response)
    (hr : createQuote service decoded s = some (r, s2)) (h400 : r.statusCode = 400) :
    ∃ m : String, r = ⟨400, some "application/json", .object [("error", .str m)]⟩ := by
  unfold createQuote at hr
  cases decoded with
  | error err =>
    simp only [Option.some.injEq, Prod.mk.injEq] at hr
    exact ⟨"Invalid JSON format", hr.1.symm⟩
  | ok quoteDto =>
    simp only at hr
    split at hr
    · simp only [Option.some.injEq, Prod.mk.injEq] at hr
      exact ⟨"Author is required", hr.1.symm⟩
    · split at hr
      · simp only [Option.some.injEq, Prod.mk.injEq] at hr
        exact ⟨"Text is required", hr.1.symm⟩
      · split at hr
        · cases hr
        · simp only [Option.some.injEq, Prod.mk.injEq] at hr
          rw [← hr.1] at h400
          cases h400
        · simp only [Option.some.injEq, Prod.mk.injEq] at hr
          rw [← hr.1] at h400
          cases h400

/-- Every answer of `deleteQuote` with status 400 is an error object. -/
theorem deleteQuote_400_shape {σ : Type} (service : QuoteServiceInterface σ)
    (idStr : String) (s s2 : σ) (r : Response)
    (hr : deleteQuote service idStr s = some (r, s2)) (h400 : r.statusCode = 400) :
    ∃ m : String, r = ⟨400, some "application/json", .object [("error", .str m)]⟩ := by
  unfold deleteQuote at hr
  split at hr
  · simp only [Option.some.injEq, Prod.mk.injEq] at hr
    exact ⟨"Quote ID is required", hr.1.symm⟩
  · split at hr
    · cases hr
    · simp only [Option.some.injEq, Prod.mk.injEq] at hr
      exact ⟨"Invalid UUID format", hr.1.symm⟩
    · split at hr
      · simp only [Option.some.injEq, Prod.mk.injEq] at hr
        rw [← hr.1] at h400
        cases h400
      · simp only [Option.some.injEq, Prod.mk.injEq] at hr
        rw [← hr.1] at h400
        cases h400

/-- The handler `getQuotes` never answers 400. -/
theorem getQuotes_not_400 {σ : Type} (service : QuoteServiceInterface σ) (query : Values)
    (s : σ) : (getQuotes service query s).1.statusCode ≠ 400 := by
  unfold getQuotes
  simp only
  split <;> simp [writeErrorResponse, writeJSONResponse, StatusInternalServerError, StatusOK]

/-- The handler `getRandomQuote` never answers 400. -/
theorem getRandomQuote_not_400 {σ : Type} (service : QuoteServiceInterface σ) (s : σ) :
    (getRandomQuote service s).1.statusCode ≠ 400 := by
  unfold getRandomQuote
  split <;> simp [writeErrorResponse, writeJSONResponse, StatusInternalServerError, StatusOK]

/-- C10: whatever error `e` the service returns, each handler answers 500
with a JSON object whose single field `error` holds a message fixed by the
operation (the right-hand sides do not mention `e`, so two errors give the
same answer); and every answer with status 400 is a JSON object with the
single field `error`. -/
theorem error_responses_generic {σ : Type} (service : QuoteServiceInterface σ) (s s1 : σ)
    (e : Error) :
    (∀ (clientId : Option UUID) (author text : String),
      TrimSpace author ≠ "" → TrimSpace text ≠ "" →
      service.CreateQuote { Id := clientId, Author := some author, Text := some text } s =
        some (.error e, s1) →
      createQuote service (.ok { Id := clientId, Author := some author, Text := some text }) s =
        some (⟨500, some "application/json",
          .object [("error", .str "Failed to create quote")]⟩, s1)) ∧
    (∀ query : Values, Values.Get query "author" = "" →
      service.GetAllQuotes s = (.error e, s1) →
      getQuotes service query s =
        (⟨500, some "application/json",
          .object [("error", .str "Failed to retrieve quotes")]⟩, s1)) ∧
    (∀ query : Values, Values.Get query "author" ≠ "" →
      service.GetQuoteByAuthor (Values.Get query "author") s = (.error e, s1) →
      getQuotes service query s =
        (⟨500, some "application/json",
          .object [("error", .str "Failed to retrieve quotes")]⟩, s1)) ∧
    (service.GetRandomQuote s = (.error e, s1) →
      getRandomQuote service s =
        (⟨500, some "application/json",
          .object [("error", .str "Failed to retrieve random quote")]⟩, s1)) ∧
    (∀ (idStr : String) (id : UUID), parseUUID idStr = some (.ok id) →
      service.DeleteQuote id s = (some e, s1) →
      deleteQuote service idStr s =
        some (⟨500, some "application/json",
          .object [("error", .str "Failed to delete quote")]⟩, s1)) ∧
    (∀ (decoded : Except Error QuoteDto) (r : Response) (s2 : σ),
      createQuote service decoded s = some (r, s2) → r.statusCode = 400 →
      ∃ m : String, r = ⟨400, some "application/json", .object [("error", .str m)]⟩) ∧
    (∀ (idStr : String) (r : Response) (s2 : σ),
      deleteQuote service idStr s = some (r, s2) → r.statusCode = 400 →
      ∃ m : String, r = ⟨400, some "application/json", .object [("error", .str m)]⟩) ∧
    (∀ query : Values, (getQuotes service query s).1.statusCode ≠ 400) ∧
    (getRandomQuote service s).1.statusCode ≠ 400 := by
  refine ⟨?_, ?_, ?_, ?_, ?_, ?_, ?_, ?_, ?_⟩
  · intro clientId author text ha ht hsvc
    simp only [createQuote]
    rw [if_neg (field_check_passes author ha), if_neg (field_check_passes text ht)]
    simp only [hsvc]
    rfl
  · intro query hq hsvc
    simp only [getQuotes, hq, ne_eq, not_true_eq_false, if_false, hsvc]
    rfl
  · intro query hq hsvc
    simp only [getQuotes, ne_eq, hq, not_false_eq_true, if_true, hsvc]
    rfl
  · intro hsvc
    simp only [getRandomQuote, hsvc]
    rfl
  · intro idStr id hp hsvc
    simp only [deleteQuote]
    rw [if_neg (parseUUID_ok_ne_empty idStr id hp), hp]
    simp only [hsvc]
    rfl
  · intro decoded r s2 hr h400
    exact createQuote_400_shape service decoded s s2 r hr h400
  · intro idStr r s2 hr h400
    exact deleteQuote_400_shape service idStr s s2 r hr h400
  · exact fun query => getQuotes_not_400 service query s
  · exact getRandomQuote_not_400 service s

/-- Witness for C10: a service that fails every call with an error carrying
connection detail; none of it reaches the five answers. -/
theorem error_responses_generic_witness :
    createQuote (failingService (.other "dial tcp 10.0.0.5:5432: connection refused"))
        (.ok { Id := none, Author := some "Twain", Text := some "Truth" }) () =
      some (⟨500, some "application/json",
        .object [("error", .str "Failed to create quote")]⟩, ()) ∧
    getQuotes (failingService (.other "dial tcp 10.0.0.5:5432: connection refused")) [] () =
      (⟨500, some "application/json",
        .object [("error", .str "Failed to retrieve quotes")]⟩, ()) ∧
    getQuotes (failingService (.other "dial tcp 10.0.0.5:5432: connection refused"))
        [("author", ["Twain"])] () =
      (⟨500, some "application/json",
        .object [("error", .str "Failed to retrieve quotes")]⟩, ()) ∧
    getRandomQuote (failingService (.other "dial tcp 10.0.0.5:5432: connection refused")) () =
      (⟨500, some "application/json",
        .object [("error", .str "Failed to retrieve random quote")]⟩, ()) ∧
    deleteQuote (failingService (.other "dial tcp 10.0.0.5:5432: connection refused"))
        "123e4567-e89b-12d3-a456-426614174000" () =
      some (⟨500, some "application/json",
        .object [("error", .str "Failed to delete quote")]⟩, ()) ∧
    ∃ m : String, writeErrorResponse "Author is required" StatusBadRequest =
      ⟨400, some "application/json", .object [("error", .str m)]⟩ :=
  have h := error_responses_generic
    (failingService (.other "dial tcp 10.0.0.5:5432: connection refused")) () ()
    (.other "dial tcp 10.0.0.5:5432: connection refused")
  ⟨h.1 none "Twain" "Truth" (by decide) (by decide) rfl,
    h.2.1 [] (by decide) rfl,
    h.2.2.1 [("author", ["Twain"])] (by decide) rfl,
    h.2.2.2.1 rfl,
    h.2.2.2.2.1 "123e4567-e89b-12d3-a456-426614174000"
      ⟨[0x12, 0x3e, 0x45, 0x67, 0xe8, 0x9b, 0x12, 0xd3, 0xa4, 0x56, 0x42, 0x66, 0x14, 0x17,
        0x40, 0x00], true⟩ (by rfl) rfl,
    h.2.2.2.2.2.1 (.ok { Id := none, Author := none, Text := some "Truth" })
      (writeErrorResponse "Author is required" StatusBadRequest) () (by rfl) rfl⟩

/-! ## Lookup and delete at the repository -/

/-- A row matches an identifier argument exactly when the row's identifier,
scanned, is that identifier. -/
theorem param_match_iff (r : Row) (i : UUID) : some r.id = i.param ↔ scanUUID r.id = i := by
  obtain ⟨bytes, valid⟩ := i
  cases valid <;> simp [UUID.param, scanUUID]

/-- C11: the repository's `GetQuoteById i` returns `ErrNoRows`, and so no
quote, exactly when no stored row has the identifier `i`, and it returns no
other error; when some row has it, the result is a quote with identifier `i`
and the author and text of a stored row with that identifier, which under
the key's uniqueness is the one row that has it. The store is unchanged. -/
theorem GetQuoteById_not_found_iff (db : Db) (i : UUID) :
    (QuoteDriver.GetQuoteById i db = (.error .ErrNoRows, db) ↔
      ∀ r ∈ db.rows, scanUUID r.id ≠ i) ∧
    (∀ e : Error, QuoteDriver.GetQuoteById i db = (.error e, db) → e = .ErrNoRows) ∧
    ((∃ r ∈ db.rows, scanUUID r.id = i) →
      ∃ r ∈ db.rows, scanUUID r.id = i ∧
        QuoteDriver.GetQuoteById i db =
          (.ok { Id := i, Author := r.author, Text := r.text }, db)) ∧
    ((db.rows.map Row.id).Nodup → ∀ r ∈ db.rows, scanUUID r.id = i →
      QuoteDriver.GetQuoteById i db =
        (.ok { Id := i, Author := r.author, Text := r.text }, db)) := by
  have hcases : (∀ r ∈ db.rows, scanUUID r.id ≠ i) ∨
      ∃ r ∈ db.rows, scanUUID r.id = i ∧
        QuoteDriver.GetQuoteById i db =
          (.ok { Id := i, Author := r.author, Text := r.text }, db) := by
    cases hsel : db.rows.filter (fun r => decide (some r.id = i.param)) with
    | nil =>
      left
      intro r hr hid
      have hmem : r ∈ db.rows.filter (fun r => decide (some r.id = i.param)) :=
        List.mem_filter.mpr ⟨hr, by simpa using (param_match_iff r i).mpr hid⟩
      rw [hsel] at hmem
      cases hmem
    | cons r rest =>
      right
      have hmem : r ∈ db.rows.filter (fun r => decide (some r.id = i.param)) := by
        rw [hsel]
        exact List.mem_cons_self _ _
      have hr := List.mem_filter.mp hmem
      refine ⟨r, hr.1, (param_match_iff r i).mp (by simpa using hr.2), ?_⟩
      simp only [QuoteDriver.GetQuoteById, queryGetQuoteById, hsel, List.map_cons, scanRow]
  have habsent : (∀ r ∈ db.rows, scanUUID r.id ≠ i) →
      QuoteDriver.GetQuoteById i db = (.error .ErrNoRows, db) := by
    intro habs
    have hsel : queryGetQuoteById i.param db = [] := by
      unfold queryGetQuoteById
      rw [List.map_eq_nil_iff, List.filter_eq_nil_iff]
      intro r hr
      have := habs r hr
      simpa using fun h => this ((param_match_iff r i).mp h)
    simp only [QuoteDriver.GetQuoteById, hsel, scanRow]
  refine ⟨⟨?_, habsent⟩, ?_, ?_, ?_⟩
  · intro herr
    rcases hcases with habs | ⟨r, _, _, hok⟩
    · exact habs
    · rw [hok] at herr
      cases herr
  · intro e he
    rcases hcases with habs | ⟨r, _, _, hok⟩
    · rw [habsent habs] at he
      cases he
      rfl
    · rw [hok] at he
      cases he
  · rintro ⟨r, hr, hid⟩
    rcases hcases with habs | hfound
    · exact absurd hid (habs r hr)
    · exact hfound
  · intro hnodup r hr hid
    obtain ⟨pre, post, hsplit⟩ := List.append_of_mem hr
    obtain ⟨rows⟩ := db
    simp only at hsplit hnodup
    subst hsplit
    rw [← hid]
    exact GetQuoteById_present pre post r (ids_distinct_split pre post r hnodup)

/-- Witness for C11: a lookup that finds the second row of a two-row store,
and one that finds none. -/
theorem GetQuoteById_not_found_iff_witness :
    QuoteDriver.GetQuoteById ⟨List.replicate 16 2, true⟩
        { rows := [{ id := List.replicate 16 1, author := "Twain", text := "Truth" },
          { id := List.replicate 16 2, author := "Wilde", text := "Be yourself" }] } =
      (.ok { Id := ⟨List.replicate 16 2, true⟩, Author := "Wilde", Text := "Be yourself" },
        { rows := [{ id := List.replicate 16 1, author := "Twain", text := "Truth" },
          { id := List.replicate 16 2, author := "Wilde", text := "Be yourself" }] }) ∧
    QuoteDriver.GetQuoteById ⟨List.replicate 16 3, true⟩
        { rows := [{ id := List.replicate 16 1, author := "Twain", text := "Truth" },
          { id := List.replicate 16 2, author := "Wilde", text := "Be yourself" }] } =
      (.error .ErrNoRows,
        { rows := [{ id := List.replicate 16 1, author := "Twain", text := "Truth" },
          { id := List.replicate 16 2, author := "Wilde", text := "Be yourself" }] }) :=
  ⟨(GetQuoteById_not_found_iff
      { rows := [{ id := List.replicate 16 1, author := "Twain", text := "Truth" },
        { id := List.replicate 16 2, author := "Wilde", text := "Be yourself" }] }
      ⟨List.replicate 16 2, true⟩).2.2.2 (by decide)
      { id := List.replicate 16 2, author := "Wilde", text := "Be yourself" } (by decide) rfl,
    (GetQuoteById_not_found_iff
      { rows := [{ id := List.replicate 16 1, author := "Twain", text := "Truth" },
        { id := List.replicate 16 2, author := "Wilde", text := "Be yourself" }] }
      ⟨List.replicate 16 3, true⟩).1.mpr (by decide)⟩

/-- C12: when the identifier matches no stored row, the repository's
`DeleteQuote` returns no error and the store is as it was. -/
theorem DeleteQuote_no_match_succeeds (db : Db) (i : UUID)
    (habs : ∀ r ∈ db.rows, scanUUID r.id ≠ i) :
    QuoteDriver.DeleteQuote i db = (none, db) := by
  have hkeep : db.rows.filter (fun r => decide ¬ (some r.id = i.param)) = db.rows := by
    rw [List.filter_eq_self]
    intro r hr
    have := habs r hr
    simpa using fun h => this ((param_match_iff r i).mp h)
  obtain ⟨rows⟩ := db
  simp only [QuoteDriver.DeleteQuote, queryDeleteQuote] at hkeep ⊢
  rw [hkeep]

/-- Witness for C12: deleting an identifier that the one-row store does not
hold. -/
theorem DeleteQuote_no_match_succeeds_witness :
    QuoteDriver.DeleteQuote ⟨List.replicate 16 9, true⟩
        { rows := [{ id := List.replicate 16 1, author := "Twain", text := "Truth" }] } =
      (none, { rows := [{ id := List.replicate 16 1, author := "Twain", text := "Truth" }] }) :=
  DeleteQuote_no_match_succeeds
    { rows := [{ id := List.replicate 16 1, author := "Twain", text := "Truth" }] }
    ⟨List.replicate 16 9, true⟩ (by decide)

/-! ## Trimming in `parseUUID` -/

/-- Leading elements that satisfy `p` do not survive `dropWhile`. -/
theorem dropWhile_append_left {α : Type} (p : α → Bool) (ws l : List α)
    (hws : ∀ c ∈ ws, p c = true) : (ws ++ l).dropWhile p = l.dropWhile p := by
  induction ws with
  | nil => rfl
  | cons w ws ih =>
    have hw : p w = true := hws w (List.mem_cons_self _ _)
    rw [List.cons_append, List.dropWhile_cons_of_pos hw]
    exact ih (fun c hc => hws c (List.mem_cons_of_mem _ hc))

/-- Trailing elements that satisfy `p` do not survive `dropTrailing`. -/
theorem dropTrailing_append_right {α : Type} (p : α → Bool) (l ws : List α)
    (hws : ∀ c ∈ ws, p c = true) : dropTrailing p (l ++ ws) = dropTrailing p l := by
  unfold dropTrailing
  rw [List.reverse_append, dropWhile_append_left p ws.reverse l.reverse]
  intro c hc
  exact hws c (List.mem_reverse.mp hc)

/-- Padding on the right is removed by trimming at both ends. -/
theorem trim_append_right {α : Type} (p : α → Bool) (l ws : List α)
    (hws : ∀ c ∈ ws, p c = true) :
    dropTrailing p ((l ++ ws).dropWhile p) = dropTrailing p (l.dropWhile p) := by
  induction l with
  | nil =>
    have hnil : ws.dropWhile p = [] := List.dropWhile_eq_nil_iff.mpr hws
    simp [hnil]
  | cons x xs ih =>
    by_cases hx : p x = true
    · rw [List.cons_append, List.dropWhile_cons_of_pos hx, List.dropWhile_cons_of_pos hx]
      exact ih
    · rw [List.cons_append, List.dropWhile_cons_of_neg hx, List.dropWhile_cons_of_neg hx,
        ← List.cons_append]
      exact dropTrailing_append_right p (x :: xs) ws hws

/-- Trimming a string padded with white space on both sides gives the trimmed
string. -/
theorem TrimSpace_padded (s : String) (ws1 ws2 : List Char)
    (h1 : ∀ c ∈ ws1, isSpace c = true) (h2 : ∀ c ∈ ws2, isSpace c = true) :
    TrimSpace ⟨ws1 ++ s.data ++ ws2⟩ = TrimSpace s := by
  unfold TrimSpace
  simp only [List.append_assoc]
  rw [dropWhile_append_left isSpace ws1 _ h1, trim_append_right isSpace s.data ws2 h2]

/-- What remains after trimming has no white space at its ends. -/
theorem TrimSpace_idempotent (s : String) : TrimSpace (TrimSpace s) = TrimSpace s := by
  unfold TrimSpace
  have hlead : (dropTrailing isSpace (s.data.dropWhile isSpace)).dropWhile isSpace =
      dropTrailing isSpace (s.data.dropWhile isSpace) := by
    cases hm : s.data.dropWhile isSpace with
    | nil => rfl
    | cons y ys =>
      have hy : isSpace y = false := by
        have := List.head_dropWhile_not isSpace s.data (by rw [hm]; simp)
        simpa [hm] using this
      have hpre : dropTrailing isSpace (y :: ys) <+: y :: ys := List.rdropWhile_prefix _ _
      cases ht : dropTrailing isSpace (y :: ys) with
      | nil => rfl
      | cons z zs =>
        rw [ht] at hpre
        obtain ⟨rest, hrest⟩ := hpre
        have hz : z = y := by
          simp only [List.cons_append, List.cons.injEq] at hrest
          exact hrest.1
        rw [hz, List.dropWhile_cons_of_neg (by simp [hy])]
  have htrail : dropTrailing isSpace (dropTrailing isSpace (s.data.dropWhile isSpace)) =
      dropTrailing isSpace (s.data.dropWhile isSpace) := List.rdropWhile_idempotent _ _
  simp only [hlead, htrail]

/-- A rendered hexadecimal digit is no white space, is one byte, and reads
back as its value. -/
theorem hexDigit_facts : ∀ n, n < 16 →
    isSpace (hexDigit n) = false ∧ utf8Bytes (hexDigit n) = [(hexDigit n).toNat] ∧
    fromHexChar (hexDigit n).toNat = some n := by
  decide

/-- The two digits of a byte: no white space, one byte each, and they decode
to the byte. -/
theorem byte_digits (b : Nat) (hb : b < 256) :
    isSpace (hexDigit (b / 16)) = false ∧ isSpace (hexDigit (b % 16)) = false ∧
    utf8Bytes (hexDigit (b / 16)) = [(hexDigit (b / 16)).toNat] ∧
    utf8Bytes (hexDigit (b % 16)) = [(hexDigit (b % 16)).toNat] ∧
    ∀ rest : List Nat, hexDecode ((hexDigit (b / 16)).toNat :: (hexDigit (b % 16)).toNat :: rest) =
      match hexDecode rest with
      | some bs => some (b :: bs)
      | none => none := by
  have hhi := hexDigit_facts (b / 16) (by omega)
  have hlo := hexDigit_facts (b % 16) (Nat.mod_lt _ (by omega))
  refine ⟨hhi.1, hlo.1, hhi.2.1, hlo.2.1, ?_⟩
  intro rest
  have hval : b / 16 * 16 + b % 16 = b := by omega
  rw [hexDecode, hhi.2.2, hlo.2.2]
  simp only [hval]

/-- The server's rendering of an identifier parses back to it. -/
theorem parseUUID_encodeUUID (bs : List Nat) (hlen : bs.length = 16)
    (hb : ∀ b ∈ bs, b < 256) : parseUUID (encodeUUID bs) = some (.ok ⟨bs, true⟩) := by
  obtain ⟨b0, b1, b2, b3, b4, b5, b6, b7, b8, b9, b10, b11, b12, b13, b14, b15, rfl⟩ :
      ∃ b0 b1 b2 b3 b4 b5 b6 b7 b8 b9 b10 b11 b12 b13 b14 b15,
        bs = [b0, b1, b2, b3, b4, b5, b6, b7, b8, b9, b10, b11, b12, b13, b14, b15] := by
    match bs, hlen with
    | [b0, b1, b2, b3, b4, b5, b6, b7, b8, b9, b10, b11, b12, b13, b14, b15], _ =>
      exact ⟨b0, b1, b2, b3, b4, b5, b6, b7, b8, b9, b10, b11, b12, b13, b14, b15, rfl⟩
  simp only [List.mem_cons, List.mem_singleton, forall_eq_or_imp, forall_eq, List.not_mem_nil,
    false_implies, implies_true, and_true] at hb
  obtain ⟨h0, h1, h2, h3, h4, h5, h6, h7, h8, h9, h10, h11, h12, h13, h14, h15⟩ := hb
  have d0 := byte_digits b0 h0
  have d1 := byte_digits b1 h1
  have d2 := byte_digits b2 h2
  have d3 := byte_digits b3 h3
  have d4 := byte_digits b4 h4
  have d5 := byte_digits b5 h5
  have d6 := byte_digits b6 h6
  have d7 := byte_digits b7 h7
  have d8 := byte_digits b8 h8
  have d9 := byte_digits b9 h9
  have d10 := byte_digits b10 h10
  have d11 := byte_digits b11 h11
  have d12 := byte_digits b12 h12
  have d13 := byte_digits b13 h13
  have d14 := byte_digits b14 h14
  have d15 := byte_digits b15 h15
  have htrim : TrimSpace (encodeUUID [b0, b1, b2, b3, b4, b5, b6, b7, b8, b9, b10, b11, b12,
      b13, b14, b15]) = encodeUUID [b0, b1, b2, b3, b4, b5, b6, b7, b8, b9, b10, b11, b12, b13,
      b14, b15] := by
    simp [TrimSpace, encodeUUID, hexEncode, dropTrailing, d0.1, d15.2.1]
  have hdash : utf8Bytes '-' = [45] := by decide
  have hbytes : goBytes (encodeUUID [b0, b1, b2, b3, b4, b5, b6, b7, b8, b9, b10, b11, b12,
      b13, b14, b15]) =
      [(hexDigit (b0 / 16)).toNat, (hexDigit (b0 % 16)).toNat,
       (hexDigit (b1 / 16)).toNat, (hexDigit (b1 % 16)).toNat,
       (hexDigit (b2 / 16)).toNat, (hexDigit (b2 % 16)).toNat,
       (hexDigit (b3 / 16)).toNat, (hexDigit (b3 % 16)).toNat, 45,
       (hexDigit (b4 / 16)).toNat, (hexDigit (b4 % 16)).toNat,
       (hexDigit (b5 / 16)).toNat, (hexDigit (b5 % 16)).toNat, 45,
       (hexDigit (b6 / 16)).toNat, (hexDigit (b6 % 16)).toNat,
       (hexDigit (b7 / 16)).toNat, (hexDigit (b7 % 16)).toNat, 45,
       (hexDigit (b8 / 16)).toNat, (hexDigit (b8 % 16)).toNat,
       (hexDigit (b9 / 16)).toNat, (hexDigit (b9 % 16)).toNat, 45,
       (hexDigit (b10 / 16)).toNat, (hexDigit (b10 % 16)).toNat,
       (hexDigit (b11 / 16)).toNat, (hexDigit (b11 % 16)).toNat,
       (hexDigit (b12 / 16)).toNat, (hexDigit (b12 % 16)).toNat,
       (hexDigit (b13 / 16)).toNat, (hexDigit (b13 % 16)).toNat,
       (hexDigit (b14 / 16)).toNat, (hexDigit (b14 % 16)).toNat,
       (hexDigit (b15 / 16)).toNat, (hexDigit (b15 % 16)).toNat] := by
    simp only [goBytes, encodeUUID, hexEncode, List.take, List.drop, List.flatMap_cons,
      List.flatMap_nil, List.append_nil, List.cons_append, List.nil_append, List.append_assoc,
      hdash, d0.2.2.1, d0.2.2.2.1, d1.2.2.1, d1.2.2.2.1, d2.2.2.1, d2.2.2.2.1, d3.2.2.1,
      d3.2.2.2.1, d4.2.2.1, d4.2.2.2.1, d5.2.2.1, d5.2.2.2.1, d6.2.2.1, d6.2.2.2.1, d7.2.2.1,
      d7.2.2.2.1, d8.2.2.1, d8.2.2.2.1, d9.2.2.1, d9.2.2.2.1, d10.2.2.1, d10.2.2.2.1,
      d11.2.2.1, d11.2.2.2.1, d12.2.2.1, d12.2.2.2.1, d13.2.2.1, d13.2.2.2.1, d14.2.2.1,
      d14.2.2.2.1, d15.2.2.1, d15.2.2.2.1]
  rw [parseUUID_eq, htrim]
  have hshape : ¬ (goLen (encodeUUID [b0, b1, b2, b3, b4, b5, b6, b7, b8, b9, b10, b11, b12,
      b13, b14, b15]) ≠ 36 ∨
      goIndex (encodeUUID [b0, b1, b2, b3, b4, b5, b6, b7, b8, b9, b10, b11, b12, b13, b14,
        b15]) 8 ≠ some 45 ∨
      goIndex (encodeUUID [b0, b1, b2, b3, b4, b5, b6, b7, b8, b9, b10, b11, b12, b13, b14,
        b15]) 13 ≠ some 45 ∨
      goIndex (encodeUUID [b0, b1, b2, b3, b4, b5, b6, b7, b8, b9, b10, b11, b12, b13, b14,
        b15]) 18 ≠ some 45 ∨
      goIndex (encodeUUID [b0, b1, b2, b3, b4, b5, b6, b7, b8, b9, b10, b11, b12, b13, b14,
        b15]) 23 ≠ some 45) := by
    simp [goLen, goIndex, hbytes]
  rw [if_neg hshape]
  simp only [UUID.Scan, pgtypeParseUUID, hbytes]
  simp only [List.length_cons, List.length_nil, List.take, List.drop, List.cons_append,
    List.nil_append, if_true, Nat.reduceAdd,
    d0.2.2.2.2, d1.2.2.2.2, d2.2.2.2.2, d3.2.2.2.2, d4.2.2.2.2, d5.2.2.2.2, d6.2.2.2.2,
    d7.2.2.2.2, d8.2.2.2.2, d9.2.2.2.2, d10.2.2.2.2, d11.2.2.2.2, d12.2.2.2.2, d13.2.2.2.2,
    d14.2.2.2.2, d15.2.2.2.2]
  rfl

/-- The controller's `parseUUID` sees its argument only through the trimmed
string. -/
theorem parseUUID_congr (a b : String) (h : TrimSpace a = TrimSpace b) :
    parseUUID a = parseUUID b := by
  rw [parseUUID_eq, parseUUID_eq, h]

/-- C13: `parseUUID` returns on every string, the empty and the short ones
included (no byte is read out of range), and gives the same result on a
string as on that string trimmed, and as on that string padded with any white
space before and after; the canonical rendering of a sixteen-byte identifier,
padded so, is accepted and yields that identifier. -/
theorem parseUUID_whitespace_invariant (s : String) :
    parseUUID s ≠ none ∧
    parseUUID s = parseUUID (TrimSpace s) ∧
    (∀ ws1 ws2 : List Char, (∀ c ∈ ws1, isSpace c = true) → (∀ c ∈ ws2, isSpace c = true) →
      parseUUID ⟨ws1 ++ s.data ++ ws2⟩ = parseUUID s) ∧
    (∀ (bs : List Nat) (ws1 ws2 : List Char), bs.length = 16 → (∀ b ∈ bs, b < 256) →
      (∀ c ∈ ws1, isSpace c = true) → (∀ c ∈ ws2, isSpace c = true) →
      parseUUID ⟨ws1 ++ (encodeUUID bs).data ++ ws2⟩ = some (.ok ⟨bs, true⟩) ∧
      parseUUID (encodeUUID bs) = some (.ok ⟨bs, true⟩)) := by
  refine ⟨?_, ?_, ?_, ?_⟩
  · rw [parseUUID_eq]
    exact Option.some_ne_none _
  · exact parseUUID_congr s (TrimSpace s) (TrimSpace_idempotent s).symm
  · intro ws1 ws2 h1 h2
    exact parseUUID_congr _ s (TrimSpace_padded s ws1 ws2 h1 h2)
  · intro bs ws1 ws2 hlen hb h1 h2
    have hcanon := parseUUID_encodeUUID bs hlen hb
    refine ⟨?_, hcanon⟩
    rw [parseUUID_congr _ (encodeUUID bs) (TrimSpace_padded (encodeUUID bs) ws1 ws2 h1 h2)]
    exact hcanon

/-- Witness for C13: the empty string, a string of five bytes, and a
canonical identifier padded with a space, a tab and a line feed. -/
theorem parseUUID_whitespace_invariant_witness :
    parseUUID "" = some (.error (.InvalidUUIDError "")) ∧
    parseUUID " 123e " = some (.error (.InvalidUUIDError "123e")) ∧
    parseUUID ⟨[' ', '\t'] ++ "123e4567-e89b-12d3-a456-426614174000".data ++ ['\n']⟩ =
      parseUUID "123e4567-e89b-12d3-a456-426614174000" ∧
    parseUUID " \t123e4567-e89b-12d3-a456-426614174000\n" =
      some (.ok ⟨[0x12, 0x3e, 0x45, 0x67, 0xe8, 0x9b, 0x12, 0xd3, 0xa4, 0x56, 0x42, 0x66, 0x14,
        0x17, 0x40, 0x00], true⟩) :=
  ⟨by rfl, by rfl,
    (parseUUID_whitespace_invariant "123e4567-e89b-12d3-a456-426614174000").2.2.1
      [' ', '\t'] ['\n'] (by decide) (by decide),
    ((parseUUID_whitespace_invariant "").2.2.2
      [0x12, 0x3e, 0x45, 0x67, 0xe8, 0x9b, 0x12, 0xd3, 0xa4, 0x56, 0x42, 0x66, 0x14, 0x17, 0x40,
        0x00] [' ', '\t'] ['\n'] rfl (by decide) (by decide) (by decide)).1⟩

/-! ## Dispatch of `GET /quotes` -/

/-- What the repository's `GetAllQuotes` returns: every row, in storage
order. -/
theorem GetAllQuotes_eq (db : Db) :
    QuoteDriver.GetAllQuotes db =
      (.ok (db.rows.map
        (fun r => { Id := scanUUID r.id, Author := r.author, Text := r.text })), db) := by
  simp only [QuoteDriver.GetAllQuotes, queryGetAllQuotes, foldl_append_eq_map, List.nil_append,
    List.map_map]
  rfl

/-- A query without the key, with the key and no value, or with an empty
first value reads as the empty string. -/
theorem Values_Get_empty (query : Values)
    (h : query.lookup "author" = none ∨ query.lookup "author" = some [] ∨
      ∃ rest, query.lookup "author" = some ("" :: rest)) :
    Values.Get query "author" = "" := by
  unfold Values.Get
  rcases h with h | h | ⟨rest, h⟩ <;> rw [h]

/-- C14: when the `author` parameter is absent or empty, `getQuotes` calls
`GetAllQuotes` and nothing else, and on the wired server answers 200 with
every stored row whatever its author; it calls `GetQuoteByAuthor` exactly when
the parameter is a non-empty string, and then with that string as it is. -/
theorem getQuotes_dispatch (query : Values) :
    ((query.lookup "author" = none ∨ query.lookup "author" = some [] ∨
        ∃ rest, query.lookup "author" = some ("" :: rest)) →
      (getQuotes recordingService query []).2 = [.GetAllQuotes] ∧
      (∀ (σ : Type) (service : QuoteServiceInterface σ) (s : σ),
        getQuotes service query s =
          match service.GetAllQuotes s with
          | (.error _, s1) =>
            (writeErrorResponse "Failed to retrieve quotes" StatusInternalServerError, s1)
          | (.ok quotes, s1) =>
            (writeJSONResponse (.array (quotes.map QuoteDto.toJson)) StatusOK, s1)) ∧
      ∀ (pick : Nat) (newUuid : List Nat) (db : Db),
        getQuotes (server pick newUuid) query db =
          (⟨200, some "application/json", .array (db.rows.map Row.toJson)⟩, db)) ∧
    ((∃ author, (getQuotes recordingService query []).2 = [.GetQuoteByAuthor author]) ↔
      Values.Get query "author" ≠ "") ∧
    (∀ (author : String) (rest : List String), query.lookup "author" = some (author :: rest) →
      author ≠ "" →
      (getQuotes recordingService query []).2 = [.GetQuoteByAuthor author]) := by
  refine ⟨?_, ?_, ?_⟩
  · intro habsent
    have hget := Values_Get_empty query habsent
    refine ⟨?_, ?_, ?_⟩
    · simp [getQuotes, hget, recordingService]
    · intro σ service s
      simp only [getQuotes, hget, ne_eq, not_true_eq_false, if_false]
    · intro pick newUuid db
      have hsvc : (server pick newUuid).GetAllQuotes db =
          (.ok (quotesToDtos (db.rows.map
            (fun r => { Id := scanUUID r.id, Author := r.author, Text := r.text }))), db) := by
        simp only [server, NewQuoteService, QuoteService.GetAllQuotes, NewQuoteDriver,
          GetAllQuotes_eq]
      simp only [getQuotes, hget, ne_eq, not_true_eq_false, if_false, hsvc, quotesToDtos_eq_map,
        List.map_map, writeJSONResponse, StatusOK]
      rfl
  · by_cases hget : Values.Get query "author" = ""
    · simp [getQuotes, hget, recordingService]
    · simp [getQuotes, hget, recordingService]
  · intro author rest hlook hne
    have hget : Values.Get query "author" = author := by
      unfold Values.Get
      rw [hlook]
    simp [getQuotes, hget, hne, recordingService]

/-- Witness for C14: the request `?author=` against a store with a row whose
author is empty and a row whose author is not, and the request
`?author=Twain` against the recording double. -/
theorem getQuotes_dispatch_witness :
    getQuotes (server 0 []) [("author", [""])]
        { rows := [{ id := List.replicate 16 1, author := "", text := "Anonymous" },
          { id := List.replicate 16 2, author := "Twain", text := "Truth" }] } =
      (⟨200, some "application/json",
        .array [[("id", .str "01010101-0101-0101-0101-010101010101"), ("author", .str ""),
            ("text", .str "Anonymous")],
          [("id", .str "02020202-0202-0202-0202-020202020202"), ("author", .str "Twain"),
            ("text", .str "Truth")]]⟩,
        { rows := [{ id := List.replicate 16 1, author := "", text := "Anonymous" },
          { id := List.replicate 16 2, author := "Twain", text := "Truth" }] }) ∧
    (getQuotes recordingService [("author", [" Twain "])] []).2 =
      [.GetQuoteByAuthor " Twain "] :=
  ⟨((getQuotes_dispatch [("author", [""])]).1 (Or.inr (Or.inr ⟨[], rfl⟩))).2.2 0 []
      { rows := [{ id := List.replicate 16 1, author := "", text := "Anonymous" },
        { id := List.replicate 16 2, author := "Twain", text := "Truth" }] },
    (getQuotes_dispatch [("author", [" Twain "])]).2.2 " Twain " [] rfl (by decide)⟩

/-! ## Environment file -/

/-- Splitting a list at the first element that fails `p`. -/
theorem split_at_first {α : Type} (p : α → Bool) (ks : List α) (x : α) (vs : List α)
    (hk : ∀ c ∈ ks, p c = true) (hx : p x = false) :
    (ks ++ x :: vs).dropWhile p = x :: vs ∧ (ks ++ x :: vs).takeWhile p = ks := by
  induction ks with
  | nil => simp [List.dropWhile, List.takeWhile, hx]
  | cons k ks ih =>
    have hkp : p k = true := hk k (List.mem_cons_self _ _)
    have := ih (fun c hc => hk c (List.mem_cons_of_mem _ hc))
    simp [List.dropWhile, List.takeWhile, hkp, this]

/-- The split of `K=V` is at the first separator: `K`, and all of `V`. -/
theorem SplitN_first (K V : String) (hK : '=' ∉ K.data) :
    SplitN (K ++ "=" ++ V) '=' = [K, V] := by
  have hdata : (K ++ "=" ++ V).data = K.data ++ '=' :: V.data := by
    simp [String.data_append]
  have hsplit := split_at_first (fun c => c != '=') K.data '=' V.data
    (by
      intro c hc
      have hne : c ≠ '=' := fun h => hK (h ▸ hc)
      simpa using hne)
    (by simp)
  unfold SplitN
  rw [hdata, hsplit.1, hsplit.2]

/-- A string without the separator is not split. -/
theorem SplitN_none (s : String) (hs : '=' ∉ s.data) : SplitN s '=' = [s] := by
  have hnil : s.data.dropWhile (fun c => c != '=') = [] := by
    rw [List.dropWhile_eq_nil_iff]
    intro c hc
    have hne : c ≠ '=' := fun h => hs (h ▸ hc)
    simpa using hne
  unfold SplitN
  rw [hnil]

/-- The comment test of `LoadEnv` is a test of the first character. -/
theorem HasPrefix_hash (s : String) : HasPrefix s "#" = true ↔ s.data.head? = some '#' := by
  unfold HasPrefix
  have hhash : ("#" : String).data = ['#'] := rfl
  rw [hhash]
  cases s.data with
  | nil => simp [List.isPrefixOf]
  | cons c cs =>
    simp only [List.isPrefixOf, List.head?_cons, Option.some.injEq, Bool.and_true,
      beq_iff_eq]
    exact eq_comm

/-- The characters of a trimmed string are characters of the string. -/
theorem mem_TrimSpace (s : String) (c : Char) (hc : c ∈ (TrimSpace s).data) : c ∈ s.data := by
  unfold TrimSpace at hc
  have h1 : c ∈ s.data.dropWhile isSpace := (List.rdropWhile_prefix isSpace _).subset hc
  exact (List.dropWhile_sublist isSpace).subset h1

/-- The loop passes over a blank line or a comment. -/
theorem scan_skip (scanErr : Option Error) (text : String) (rest : List String) (n : Nat)
    (env : Env) (h : Reads text .skip) :
    LoadEnv.scan scanErr (text :: rest) n env = LoadEnv.scan scanErr rest (n + 1) env := by
  have hcond : TrimSpace text = "" ∨ HasPrefix (TrimSpace text) "#" = true := by
    rcases h with h | h
    · exact Or.inl h
    · exact Or.inr ((HasPrefix_hash _).mpr h)
  rw [LoadEnv.scan]
  simp only [if_pos hcond]

/-- The loop binds the trimmed key of a `K=V` line to its trimmed value. -/
theorem scan_assign (scanErr : Option Error) (text : String) (rest : List String) (n : Nat)
    (env : Env) (K V : String) (h : Reads text (.assign K V)) :
    LoadEnv.scan scanErr (text :: rest) n env =
      LoadEnv.scan scanErr rest (n + 1) ((TrimSpace K, TrimSpace V) :: env) := by
  obtain ⟨hform, hK, hhash, hkey, hnulK, hnulV⟩ := h
  have hcond : ¬ (TrimSpace text = "" ∨ HasPrefix (TrimSpace text) "#" = true) := by
    rintro (h | h)
    · rw [h] at hform
      have := congrArg String.length hform
      have h1 : ("=" : String).length = 1 := rfl
      simp only [String.length_append, h1] at this
      have h0 : ("" : String).length = 0 := rfl
      omega
    · exact hhash ((HasPrefix_hash _).mp h)
  have hnoeq : (TrimSpace K).data.any (fun c => c == '=') = false := by
    rw [List.any_eq_false]
    intro c hc
    have hne : c ≠ '=' := fun h => hK (h ▸ mem_TrimSpace K c hc)
    simpa using hne
  have hset : Setenv (TrimSpace K) (TrimSpace V) env = .ok ((TrimSpace K, TrimSpace V) :: env) := by
    unfold Setenv
    rw [if_neg]
    simp [hkey, hnoeq, hnulK, hnulV]
  rw [LoadEnv.scan]
  simp only [if_neg hcond]
  simp only [hform, SplitN_first K V hK, hset]

/-- The loop stops at an effective line without the separator and names its
number. -/
theorem scan_bad (scanErr : Option Error) (bad : String) (rest : List String) (n : Nat)
    (env : Env) (hblank : TrimSpace bad ≠ "") (hhash : (TrimSpace bad).data.head? ≠ some '#')
    (hnoeq : '=' ∉ (TrimSpace bad).data) :
    LoadEnv.scan scanErr (bad :: rest) n env =
      (some (.other ("invalid format at line " ++ toString (n + 1) ++ ": " ++ TrimSpace bad)),
        env) := by
  have hcond : ¬ (TrimSpace bad = "" ∨ HasPrefix (TrimSpace bad) "#" = true) := by
    rintro (h | h)
    · exact hblank h
    · exact hhash ((HasPrefix_hash _).mp h)
  rw [LoadEnv.scan]
  simp only [if_neg hcond, SplitN_none _ hnoeq]

/-- Over lines of the given forms the loop reaches what follows them, with
the line count advanced and each key looked up as the lines last set it. -/
theorem scan_well_formed (scanErr : Option Error) (texts : List String) (ls : List EnvLine)
    (h : List.Forall₂ Reads texts ls) :
    ∀ (n : Nat) (env : Env), ∃ env1 : Env,
      (∀ key : String, LookupEnv env1 key =
        match lastValue ls key with
        | some v => some v
        | none => LookupEnv env key) ∧
      ∀ tail : List String, LoadEnv.scan scanErr (texts ++ tail) n env =
        LoadEnv.scan scanErr tail (n + texts.length) env1 := by
  induction h with
  | nil =>
    intro n env
    exact ⟨env, fun key => rfl, fun tail => rfl⟩
  | @cons text l texts ls hread _ ih =>
    intro n env
    cases l with
    | skip =>
      obtain ⟨env1, hlook, hscan⟩ := ih (n + 1) env
      refine ⟨env1, ?_, ?_⟩
      · intro key
        rw [hlook key]
        simp only [lastValue]
        cases lastValue ls key <;> rfl
      · intro tail
        rw [List.cons_append, scan_skip scanErr text _ n env hread, hscan tail, List.length_cons]
        congr 1
        omega
    | assign K V =>
      obtain ⟨env1, hlook, hscan⟩ := ih (n + 1) ((TrimSpace K, TrimSpace V) :: env)
      refine ⟨env1, ?_, ?_⟩
      · intro key
        rw [hlook key]
        simp only [lastValue]
        cases lastValue ls key with
        | some v => rfl
        | none =>
          by_cases hk : TrimSpace K = key
          · simp [LookupEnv, List.lookup, hk]
          · have hk2 : (key == TrimSpace K) = false := by
              simpa using fun h => hk h.symm
            simp [LookupEnv, List.lookup, hk, hk2]
      · intro tail
        rw [List.cons_append, scan_assign scanErr text _ n env K V hread, hscan tail,
          List.length_cons]
        congr 1
        omega

/-- C15, as amended: `LoadEnv` splits a line `K=V` at its first `=` only. For
a file whose lines are each blank, a comment, or `K=V` with a non-empty
trimmed key and no NUL in the trimmed key and value, `LoadEnv` returns what
the scanner reports at the end, so it succeeds when the file is read to its
end, and a lookup of a key in the resulting environment gives the whole
trimmed value of the last line that sets it, or what the environment held
when no line sets it. When such lines are followed by a
non-blank, non-comment line without `=`, `LoadEnv` fails with the error that
names that line's number, counted from one. -/
theorem LoadEnv_first_separator (texts : List String) (ls : List EnvLine) (env : Env)
    (h : List.Forall₂ Reads texts ls) :
    (∀ K V : String, '=' ∉ K.data → SplitN (K ++ "=" ++ V) '=' = [K, V]) ∧
    (∀ scanErr : Option Error, ∃ env1 : Env,
      LoadEnv (.ok (texts, scanErr)) env = (scanErr, env1) ∧
      ∀ key : String, LookupEnv env1 key =
        match lastValue ls key with
        | some v => some v
        | none => LookupEnv env key) ∧
    (∀ (bad : String) (rest : List String) (scanErr : Option Error),
      TrimSpace bad ≠ "" → (TrimSpace bad).data.head? ≠ some '#' →
      '=' ∉ (TrimSpace bad).data →
      ∃ env1 : Env, LoadEnv (.ok (texts ++ bad :: rest, scanErr)) env =
        (some (.other ("invalid format at line " ++ toString (texts.length + 1) ++ ": " ++
          TrimSpace bad)), env1)) := by
  refine ⟨SplitN_first, ?_, ?_⟩
  · intro scanErr
    obtain ⟨env1, hlook, hscan⟩ := scan_well_formed scanErr texts ls h 0 env
    refine ⟨env1, ?_, hlook⟩
    have := hscan []
    rw [List.append_nil] at this
    simp only [LoadEnv, this, LoadEnv.scan]
  · intro bad rest scanErr hblank hhash hnoeq
    obtain ⟨env1, _, hscan⟩ := scan_well_formed scanErr texts ls h 0 env
    refine ⟨env1, ?_⟩
    simp only [LoadEnv, hscan (bad :: rest), Nat.zero_add,
      scan_bad scanErr bad rest texts.length env1 hblank hhash hnoeq]

/-- Witness for C15 as amended: a file with a comment, a blank line, a
connection string whose value holds `=`, and a port set twice; and the same
lines followed by a line without `=`. -/
theorem LoadEnv_first_separator_witness :
    (∃ env1 : Env,
      LoadEnv (.ok (["# settings", "  ",
          " DATABASE_URL = postgres://u:p@localhost:5432/quotes?sslmode=disable ",
          "PORT=8080", "PORT=9090"], none)) [("PORT", "80")] = (none, env1) ∧
      LookupEnv env1 "DATABASE_URL" =
        some "postgres://u:p@localhost:5432/quotes?sslmode=disable" ∧
      LookupEnv env1 "PORT" = some "9090") ∧
    ∃ env1 : Env,
      LoadEnv (.ok (["# settings", "  ",
          " DATABASE_URL = postgres://u:p@localhost:5432/quotes?sslmode=disable ",
          "PORT=8080", "PORT=9090"] ++ "no separator" :: ["PORT=1"], none)) [("PORT", "80")] =
        (some (.other "invalid format at line 6: no separator"), env1) := by
  have hforms : List.Forall₂ Reads
      ["# settings", "  ",
        " DATABASE_URL = postgres://u:p@localhost:5432/quotes?sslmode=disable ",
        "PORT=8080", "PORT=9090"]
      [.skip, .skip,
        .assign "DATABASE_URL " " postgres://u:p@localhost:5432/quotes?sslmode=disable",
        .assign "PORT" "8080", .assign "PORT" "9090"] :=
    .cons (Or.inr (by rfl)) (.cons (Or.inl (by rfl))
      (.cons ⟨by rfl, by decide, by decide, by decide, by rfl, by rfl⟩
        (.cons ⟨by rfl, by decide, by decide, by decide, by rfl, by rfl⟩
          (.cons ⟨by rfl, by decide, by decide, by decide, by rfl, by rfl⟩ .nil))))
  obtain ⟨_, hok, hbad⟩ := LoadEnv_first_separator _ _ [("PORT", "80")] hforms
  obtain ⟨env1, hload, hlook⟩ := hok none
  refine ⟨⟨env1, hload, ?_, ?_⟩, ?_⟩
  · rw [hlook]
    rfl
  · rw [hlook]
    rfl
  · exact hbad "no separator" ["PORT=1"] none (by decide) (by decide) (by decide)

/-- Counterexample to C15 as stated. The one line of the first file has the
form `K=V` with the non-empty key `A`, yet `LoadEnv` fails, because the value
holds a NUL byte that `os.Setenv` rejects. In the second file the line
numbered 2 is a non-blank, non-comment line without `=`, yet the error names
line 1. -/
theorem LoadEnv_fails_on_nul_and_names_first_line :
    TrimSpace "A=\x00" = "A" ++ "=" ++ "\x00" ∧ TrimSpace "A" ≠ "" ∧
    LoadEnv (.ok (["A=\x00"], none)) [] =
      (some (.other "failed to set environment variable A: setenv: invalid argument"), []) ∧
    LoadEnv (.ok (["foo", "bar"], none)) [] =
      (some (.other "invalid format at line 1: foo"), []) :=
  ⟨by rfl, by decide, by rfl, by rfl⟩

end Quotes
